import Mathlib

/-! # TwitchNavigator: the background timer manager

A shallow embedding of `src/background.js` (class `TwitchTimerManager`), of the random
helpers and the selection policy of `src/utils.js`, of the candidate filter of
`src/content.js` and of the history log of `src/popup.js`.

The browser platform (`chrome.alarms`, `chrome.storage.local`, `chrome.tabs`,
`Math.random`, `Date.now`) is modelled as explicit state (`World`) together with
an environment (`Env`) that decides which platform calls are rejected, what
`Math.random` answers and which id a newly created tab receives.  An `async`
method becomes a function in the monad `M`, in which a rejected promise is an
`Except.error` and `try { } catch { }` is `tryCatch`.  The arithmetic on the draws of
`Math.random` is that of JavaScript Numbers, rounded by `fl`.
-/

namespace TwitchNavigator

/-! ## Numbers

A JavaScript Number is an IEEE 754 binary64 value. The model keeps the exact rational a
finite Number stands for, and an arithmetic operation on Numbers is the exact operation
followed by `fl`, the rounding to the nearest Number. This is how `randomBetween`,
`getRandomInterval` and the bounds of `selectChannelWithAI` compute. The conversion
`delay / (1000 * 60)` of a drawn interval is written without `fl`: the intervals the
handlers draw are multiples of 60000 below `2 ^ 53` (see `hours_draw`, `minutes_draw`),
whose quotient is exact. -/

/-- Rounding of a rational to the nearest integer, a tie going to the even one. -/
def roundHalfEven (y : ℚ) : ℤ :=
  if y - ⌊y⌋ < 1 / 2 then ⌊y⌋
  else if 1 / 2 < y - ⌊y⌋ then ⌊y⌋ + 1
  else if ⌊y⌋ % 2 = 0 then ⌊y⌋ else ⌊y⌋ + 1

/-- The spacing of the doubles around `x`: `2 ^ (e - 52)` where `2 ^ e ≤ |x| < 2 ^ (e + 1)`,
and `2 ^ (-1074)` in the subnormal range. -/
def ulp (x : ℚ) : ℚ := (2 : ℚ) ^ (max (Int.log 2 |x|) (-1022) - 52)

/-- The Number (IEEE 754 binary64) that the exact value `x` is rounded to: round to
nearest, ties to even. An arithmetic operation on Numbers yields `fl` of the exact
result. Overflow to `Infinity`, beyond `2 ^ 1024`, is outside the model. -/
def fl (x : ℚ) : ℚ := (roundHalfEven (x / ulp x) : ℚ) * ulp x

/-- The rational `x` is a Number. -/
def isDouble (x : ℚ) : Prop := fl x = x

/-- The rational `r` is an answer of `Math.random()`: a Number in `[0, 1)`. -/
def isDraw (r : ℚ) : Prop := isDouble r ∧ 0 ≤ r ∧ r < 1

/-! ## Values, storage, alarms, tabs -/

/-- One entry of the popup's history log: `{time, action, timestamp}`. -/
structure HistoryItem where
  time : String
  action : String
  timestamp : Nat
  deriving DecidableEq, Repr

/-- The JSON values the extension keeps in `chrome.storage.local`. `action` is
the object stored under `last_action`: `{type, timestamp, tabId?}`; `history` is the
array stored under `history`. -/
inductive JsVal where
  | null
  | bool (b : Bool)
  | num (n : Int)
  | str (s : String)
  | action (type : String) (timestamp : Nat) (tabId : Option Int)
  | history (items : List HistoryItem)
  deriving DecidableEq, Repr

/-- JavaScript truthiness of a possibly `undefined` value (`none` is `undefined`). -/
def truthy : Option JsVal → Bool
  | none => false
  | some .null => false
  | some (.bool b) => b
  | some (.num n) => n != 0
  | some (.str s) => s != ""
  | some (.action _ _ _) => true
  | some (.history _) => true

/-- The JavaScript expression `a || b`. -/
def jsOr (a : Option JsVal) (b : JsVal) : JsVal :=
  match a with
  | some v => if truthy (some v) then v else b
  | none => b

/-- The contents of `chrome.storage.local`: a key is absent or holds a value. -/
abbrev Store := String → Option JsVal

/-- Merge of the given key/value pairs into a store (`storage.local.set`). -/
def Store.setAll (s : Store) (items : List (String × JsVal)) : Store :=
  fun k => match items.lookup k with
    | some v => some v
    | none => s k

/-- The object `storage.local.get(keys)` answers with: the store cut down to `keys`. -/
def Store.getKeys (s : Store) (keys : List String) : Store :=
  fun k => if k ∈ keys then s k else none

/-- Removal of the given keys (`storage.local.remove`). -/
def Store.removeKeys (s : Store) (keys : List String) : Store :=
  fun k => if k ∈ keys then none else s k

/-- A pending one-shot alarm of `chrome.alarms`; `scheduledTime` is in
milliseconds since the epoch. -/
structure Alarm where
  name : String
  scheduledTime : ℚ
  deriving DecidableEq

/-- The part of `chrome.tabs.Tab` the manager reads. -/
structure Tab where
  id : Int
  url : String
  active : Bool
  deriving DecidableEq

/-- Messages the background sends to the content script. -/
inductive Msg where
  | switch_channel
  | return_to_channel (channel : JsVal)
  | page_ready
  deriving DecidableEq

/-- The platform calls made by the manager, with the arguments that identify them. -/
inductive Call where
  | alarmsCreate (name : String)
  | alarmsClearAll
  | alarmsGetAll
  | storageGet (keys : List String)
  | storageSet (keys : List String)
  | storageRemove (keys : List String)
  | tabsQuery
  | tabsCreate
  | tabsRemove (id : JsVal)
  | tabsSendMessage (tabId : Int) (msg : Msg)
  deriving DecidableEq

/-- A rejected platform promise, or a `TypeError` thrown by the script itself. -/
inductive Err where
  | rejected (c : Call)
  | typeError
  deriving DecidableEq

/-- A message handed to `chrome.tabs.sendMessage`, with whether it was delivered. -/
structure Sent where
  tabId : Int
  msg : Msg
  delivered : Bool
  deriving DecidableEq

/-- The platform state the manager acts on.

* `tabs` is what `chrome.tabs.query({url: '*://*.twitch.tv/*'})` answers with:
  the open target-site tabs.
* `sent`, `opened`, `closed` log the messages addressed to tabs, the ids of tabs
  created and the ids the platform was asked to close.
* `now` is `Date.now()`; a handler runs at one instant.
* `calls` and `draws` count the platform calls and the `Math.random` draws made
  so far; they index the environment's answers. -/
structure World where
  store : Store
  alarms : List Alarm
  tabs : List Tab
  sent : List Sent
  opened : List Int
  closed : List JsVal
  now : Nat
  calls : Nat
  draws : Nat

/-- What the manager does not control: `fails n c` says whether platform call `c`,
made as the `n`-th call, is rejected; `random n` is the `n`-th answer of
`Math.random()`; `newTabId n` is the id of the tab created by the `n`-th call. -/
structure Env where
  fails : Nat → Call → Bool
  random : Nat → ℚ
  newTabId : Nat → Int

/-- Every draw of `Math.random()` is a Number in `[0, 1)`. -/
def Env.randomOk (e : Env) : Prop := ∀ n, isDraw (e.random n)

/-! ## The monad of `async` methods -/

/-- An `async` computation: it reads the environment, changes the world and either
resolves with a value or rejects. -/
def M (α : Type) : Type := Env → World → Except Err α × World

instance : Monad M where
  pure a := fun _ w => (.ok a, w)
  bind m f := fun e w =>
    match m e w with
    | (.ok a, w') => f a e w'
    | (.error err, w') => (.error err, w')

instance : MonadExcept Err M where
  throw err := fun _ w => (.error err, w)
  tryCatch m h := fun e w =>
    match m e w with
    | (.ok a, w') => (.ok a, w')
    | (.error err, w') => h err e w'

/-- The bookkeeping common to every platform call: count it, and reject when the
environment says so. A rejected call has no effect. -/
def platform (c : Call) : M Unit := fun e w =>
  if e.fails w.calls c then (.error (.rejected c), { w with calls := w.calls + 1 })
  else (.ok (), { w with calls := w.calls + 1 })

/-- Read the world. -/
def getWorld : M World := fun _ w => (.ok w, w)

/-- Change the world. -/
def modifyWorld (f : World → World) : M Unit := fun _ w => (.ok (), f w)

/-- The call `Math.random()`. -/
def mathRandom : M ℚ := fun e w => (.ok (e.random w.draws), { w with draws := w.draws + 1 })

/-- The call `Date.now()`. -/
def dateNow : M Nat := fun _ w => (.ok w.now, w)

/-- The calls `console.log`, `console.warn`, `console.error`: no effect on the model. -/
def consoleLog : M Unit := pure ()

/-! ## Random intervals (`getRandomInterval`, `TwitchUtils.randomBetween`) -/

/-- The function `TwitchUtils.randomBetween(min, max)` of `src/utils.js`, as a function of the
draw `r = Math.random()` and of integer-valued Numbers `min` and `max`:
`Math.floor(r * (max - min + 1)) + min`, every operation rounded to a Number. The answer
is an integer-valued Number, given as that integer. -/
def randomBetween (r : ℚ) (min max : ℤ) : ℤ :=
  ⌊fl ((⌊fl (r * fl (fl ((max : ℚ) - min) + 1))⌋ : ℚ) + min)⌋

/-- The method `getRandomInterval(min, max, unit)` of `src/background.js`, as a function of the
draw `r = Math.random()` and of integer-valued Numbers `min` and `max`, every operation
rounded to a Number. The answer is an integer-valued Number, given as that integer. -/
def getRandomInterval (r : ℚ) (min max : ℤ) (unit : String) : ℤ :=
  let value : ℚ := fl ((⌊fl (r * fl (fl ((max : ℚ) - min) + 1))⌋ : ℚ) + min)
  if unit = "minutes" then ⌊fl (fl (value * 60) * 1000)⌋
  else if unit = "hours" then ⌊fl (fl (fl (value * 60) * 60) * 1000)⌋
  else ⌊value⌋

/-- Milliseconds per unit. -/
def unitMs (unit : String) : ℤ :=
  if unit = "minutes" then 60000 else if unit = "hours" then 3600000 else 1

/-! ## Platform calls -/

/-- The alarm set after an alarm `name` due at `t` is created: a pending alarm of the
same name is cancelled and replaced. -/
def replaceAlarm (alarms : List Alarm) (name : String) (t : ℚ) : List Alarm :=
  alarms.filter (fun a => a.name != name) ++ [{ name := name, scheduledTime := t }]

/-- The call `chrome.alarms.create(name, {delayInMinutes})`: the new alarm is due
`delayInMinutes` from now. -/
def alarmsCreate (name : String) (delayInMinutes : ℚ) : M Unit := do
  platform (.alarmsCreate name)
  modifyWorld fun w =>
    { w with alarms := replaceAlarm w.alarms name ((w.now : ℚ) + delayInMinutes * 60000) }

/-- The call `chrome.alarms.clearAll()`. -/
def alarmsClearAll : M Unit := do
  platform .alarmsClearAll
  modifyWorld fun w => { w with alarms := [] }

/-- The call `chrome.alarms.getAll()`. -/
def alarmsGetAll : M (List Alarm) := do
  platform .alarmsGetAll
  return (← getWorld).alarms

/-- The call `chrome.storage.local.get(keys)`. -/
def storageGet (keys : List String) : M Store := do
  platform (.storageGet keys)
  return (← getWorld).store.getKeys keys

/-- The call `chrome.storage.local.set(items)`. -/
def storageSet (items : List (String × JsVal)) : M Unit := do
  platform (.storageSet (items.map Prod.fst))
  modifyWorld fun w => { w with store := w.store.setAll items }

/-- The call `chrome.storage.local.remove(keys)`. -/
def storageRemove (keys : List String) : M Unit := do
  platform (.storageRemove keys)
  modifyWorld fun w => { w with store := w.store.removeKeys keys }

/-- The call `chrome.tabs.query({url: '*://*.twitch.tv/*'})`. -/
def tabsQuery : M (List Tab) := do
  platform .tabsQuery
  return (← getWorld).tabs

/-- The call `chrome.tabs.create({active: true})`: a New Tab page, whose id the platform
chooses. It is not a target-site tab, so `World.tabs` is unchanged. -/
def tabsCreate : M Tab := fun e w =>
  if e.fails w.calls .tabsCreate then
    (.error (.rejected .tabsCreate), { w with calls := w.calls + 1 })
  else
    (.ok { id := e.newTabId w.calls, url := "chrome://newtab/", active := true },
      { w with calls := w.calls + 1, opened := w.opened ++ [e.newTabId w.calls] })

/-- The call `chrome.tabs.remove(id)`. -/
def tabsRemove (id : JsVal) : M Unit := do
  platform (.tabsRemove id)
  modifyWorld fun w => { w with closed := w.closed ++ [id] }

/-- The call `chrome.tabs.sendMessage(tabId, msg)`. The attempt is logged whether or not
the content script receives it; an undelivered message rejects. -/
def tabsSendMessage (tabId : Int) (msg : Msg) : M Unit := fun e w =>
  if e.fails w.calls (.tabsSendMessage tabId msg) then
    (.error (.rejected (.tabsSendMessage tabId msg)),
      { w with calls := w.calls + 1, sent := w.sent ++ [⟨tabId, msg, false⟩] })
  else
    (.ok (), { w with calls := w.calls + 1, sent := w.sent ++ [⟨tabId, msg, true⟩] })

/-! ## `TwitchTimerManager` -/

/-- The constant `ALARM_NAMES.CHANNEL_SWITCH`. -/
@[simp]
abbrev ALARM_NAMES.CHANNEL_SWITCH : String := "channel_switch"
/-- The constant `ALARM_NAMES.TAB_OPEN`. -/
@[simp]
abbrev ALARM_NAMES.TAB_OPEN : String := "tab_open"
/-- The constant `ALARM_NAMES.TAB_CLOSE`. -/
@[simp]
abbrev ALARM_NAMES.TAB_CLOSE : String := "tab_close"
/-- The constant `ALARM_NAMES.RETURN_TO_ORIGINAL`. -/
@[simp]
abbrev ALARM_NAMES.RETURN_TO_ORIGINAL : String := "return_to_original"

/-- The constant `STORAGE_KEYS.ORIGINAL_CHANNEL`. -/
@[simp]
abbrev STORAGE_KEYS.ORIGINAL_CHANNEL : String := "original_channel"
/-- The constant `STORAGE_KEYS.CURRENT_STATE`. -/
@[simp]
abbrev STORAGE_KEYS.CURRENT_STATE : String := "current_state"
/-- The constant `STORAGE_KEYS.LAST_ACTION`. -/
@[simp]
abbrev STORAGE_KEYS.LAST_ACTION : String := "last_action"
/-- The constant `STORAGE_KEYS.TIMERS_ACTIVE`. -/
@[simp]
abbrev STORAGE_KEYS.TIMERS_ACTIVE : String := "timers_active"

/-- The regular expression `/twitch\.tv\/([^\/\?]+)/` tried at the start of `cs`: the
literal `twitch.tv/` followed by a non-empty, greedy run of characters other than
`/` and `?`; the answer is that run (capture group 1). -/
def matchChannelHere (cs : List Char) : Option (List Char) :=
  if "twitch.tv/".toList.isPrefixOf cs then
    let run := (cs.drop 10).takeWhile (fun c => c != '/' && c != '?')
    if run.isEmpty then none else some run
  else none

/-- Leftmost match of the regular expression in `cs` (`String.prototype.match`). -/
def matchChannel : List Char → Option (List Char)
  | [] => none
  | c :: cs =>
    match matchChannelHere (c :: cs) with
    | some run => some run
    | none => matchChannel cs

/-- The method `extractChannelFromUrl(url)`; `none` is `null`. -/
def extractChannelFromUrl (url : String) : Option String :=
  (matchChannel url.toList).map String.mk

/-- The method `stopTimers()`. -/
def stopTimers : M Unit := do
  alarmsClearAll
  storageSet [(STORAGE_KEYS.TIMERS_ACTIVE, .bool false),
    (STORAGE_KEYS.CURRENT_STATE, .str "idle")]
  consoleLog

/-- The method `startTimers()`. -/
def startTimers : M Unit := do
  try
    stopTimers
    let channelSwitchDelay := getRandomInterval (← mathRandom) 3 6 "hours"
    let tabOpenDelay := getRandomInterval (← mathRandom) 1 3 "hours"
    alarmsCreate ALARM_NAMES.CHANNEL_SWITCH ((channelSwitchDelay : ℚ) / (1000 * 60))
    alarmsCreate ALARM_NAMES.TAB_OPEN ((tabOpenDelay : ℚ) / (1000 * 60))
    storageSet [(STORAGE_KEYS.TIMERS_ACTIVE, .bool true),
      (STORAGE_KEYS.CURRENT_STATE, .str "active")]
    consoleLog
  catch _ =>
    consoleLog

/-- The method `restoreTimers()`. -/
def restoreTimers : M Unit := do
  let data ← storageGet [STORAGE_KEYS.TIMERS_ACTIVE]
  if truthy (data STORAGE_KEYS.TIMERS_ACTIVE) then
    consoleLog
    startTimers

/-- The method `scheduleNextChannelSwitch()`. -/
def scheduleNextChannelSwitch : M Unit := do
  let delay := getRandomInterval (← mathRandom) 3 6 "hours"
  alarmsCreate ALARM_NAMES.CHANNEL_SWITCH ((delay : ℚ) / (1000 * 60))

/-- The method `scheduleNextTabOpen()`. -/
def scheduleNextTabOpen : M Unit := do
  let delay := getRandomInterval (← mathRandom) 1 3 "hours"
  alarmsCreate ALARM_NAMES.TAB_OPEN ((delay : ℚ) / (1000 * 60))

/-- The method `saveOriginalChannel(tab)`. A non-null match is a string, truthy when non-empty. -/
def saveOriginalChannel (tab : Tab) : M Unit := do
  let currentChannel := extractChannelFromUrl tab.url
  match currentChannel with
  | some c =>
    if truthy (some (.str c)) then
      storageSet [(STORAGE_KEYS.ORIGINAL_CHANNEL, .str c)]
  | none => pure ()

/-- The method `executeChannelSwitch()`. The test `tabs.length === 0` is the match on `[]`; in the
other case `tabs.find(t => t.active) || tabs[0]` is the first active tab, else the
first tab. -/
def executeChannelSwitch : M Unit := do
  try
    let tabs ← tabsQuery
    match tabs with
    | [] =>
      consoleLog
      scheduleNextChannelSwitch
    | tab0 :: _ =>
      let activeTab := (tabs.find? (fun t => t.active)).getD tab0
      let twitchTab := activeTab
      saveOriginalChannel twitchTab
      try
        tabsSendMessage twitchTab.id .switch_channel
      catch _ =>
        consoleLog
      let stayDuration := getRandomInterval (← mathRandom) 5 20 "minutes"
      alarmsCreate ALARM_NAMES.RETURN_TO_ORIGINAL ((stayDuration : ℚ) / (1000 * 60))
      storageSet [(STORAGE_KEYS.CURRENT_STATE, .str "channel_switched"),
        (STORAGE_KEYS.LAST_ACTION, .action "channel_switched" (← dateNow) none)]
  catch _ =>
    consoleLog
    scheduleNextChannelSwitch

/-- The method `executeTabOpen()`. -/
def executeTabOpen : M Unit := do
  try
    let newTab ← tabsCreate
    let duration := getRandomInterval (← mathRandom) 3 7 "minutes"
    alarmsCreate ALARM_NAMES.TAB_CLOSE ((duration : ℚ) / (1000 * 60))
    storageSet [("temp_tab_id", .num newTab.id),
      (STORAGE_KEYS.LAST_ACTION, .action "tab_opened" (← dateNow) (some newTab.id))]
    consoleLog
  catch _ =>
    consoleLog
  scheduleNextTabOpen

/-- The method `executeTabClose()`. -/
def executeTabClose : M Unit := do
  try
    let data ← storageGet ["temp_tab_id"]
    match data "temp_tab_id" with
    | some tempTabId =>
      if truthy (some tempTabId) then
        tabsRemove tempTabId
        storageRemove ["temp_tab_id"]
        consoleLog
    | none => pure ()
  catch _ =>
    consoleLog

/-- The method `executeReturnToOriginal()`. The guard `tabs.length > 0 && data[ORIGINAL_CHANNEL]`
is the match on a non-empty list and a truthy stored value. -/
def executeReturnToOriginal : M Unit := do
  try
    let data ← storageGet [STORAGE_KEYS.ORIGINAL_CHANNEL]
    let tabs ← tabsQuery
    match tabs, data STORAGE_KEYS.ORIGINAL_CHANNEL with
    | tab0 :: _, some channel =>
      if truthy (some channel) then
        let twitchTab := (tabs.find? (fun t => t.active)).getD tab0
        tabsSendMessage twitchTab.id (.return_to_channel channel)
        storageSet [(STORAGE_KEYS.CURRENT_STATE, .str "returned"),
          (STORAGE_KEYS.LAST_ACTION, .action "returned_to_original" (← dateNow) none)]
    | _, _ => pure ()
  catch _ =>
    consoleLog
  scheduleNextChannelSwitch

/-- The method `handleAlarm(alarm)`: the `switch` on `alarm.name`. -/
def handleAlarm (alarm : Alarm) : M Unit := do
  consoleLog
  if alarm.name = ALARM_NAMES.CHANNEL_SWITCH then executeChannelSwitch
  else if alarm.name = ALARM_NAMES.TAB_OPEN then executeTabOpen
  else if alarm.name = ALARM_NAMES.TAB_CLOSE then executeTabClose
  else if alarm.name = ALARM_NAMES.RETURN_TO_ORIGINAL then executeReturnToOriginal
  else pure ()

/-- The method `forceAction(actionType)`. -/
def forceAction (actionType : String) : M Unit := do
  if actionType = "channel_switch" then executeChannelSwitch
  else if actionType = "tab_open" then executeTabOpen
  else consoleLog

/-- One entry of `status.alarms`. -/
structure AlarmStatus where
  name : String
  scheduledTime : ℚ
  timeRemaining : ℚ
  deriving DecidableEq

/-- The object `getStatus()` resolves with. -/
structure Status where
  active : JsVal
  state : JsVal
  lastAction : JsVal
  originalChannel : JsVal
  alarms : List AlarmStatus
  deriving DecidableEq

/-- The method `getStatus()`. -/
def getStatus : M Status := do
  let alarms ← alarmsGetAll
  let storage ← storageGet [STORAGE_KEYS.TIMERS_ACTIVE, STORAGE_KEYS.CURRENT_STATE,
    STORAGE_KEYS.LAST_ACTION, STORAGE_KEYS.ORIGINAL_CHANNEL]
  let now ← dateNow
  return {
    active := jsOr (storage STORAGE_KEYS.TIMERS_ACTIVE) (.bool false)
    state := jsOr (storage STORAGE_KEYS.CURRENT_STATE) (.str "idle")
    lastAction := jsOr (storage STORAGE_KEYS.LAST_ACTION) .null
    originalChannel := jsOr (storage STORAGE_KEYS.ORIGINAL_CHANNEL) .null
    alarms := alarms.map fun alarm =>
      { name := alarm.name, scheduledTime := alarm.scheduledTime,
        timeRemaining := alarm.scheduledTime - now } }

/-- The method `setupInitialState()`. -/
def setupInitialState : M Unit := do
  storageSet [(STORAGE_KEYS.TIMERS_ACTIVE, .bool false),
    (STORAGE_KEYS.CURRENT_STATE, .str "idle"),
    (STORAGE_KEYS.LAST_ACTION, .null)]
  consoleLog

/-- The test `haystack.includes(needle)` of JavaScript strings, on character lists. -/
def includesChars (needle : List Char) : List Char → Bool
  | [] => needle.isEmpty
  | c :: cs => needle.isPrefixOf (c :: cs) || includesChars needle cs

/-- The test `url.includes('twitch.tv')`. -/
def includesTwitch (url : String) : Bool :=
  includesChars "twitch.tv".toList url.toList

/-- The method `handlePageLoaded(tab)`; `none` is a missing `sender.tab`. The guard
`tab && tab.url && tab.url.includes('twitch.tv')` is the match on `some tab` with a
non-empty URL that includes `twitch.tv`. -/
def handlePageLoaded (tab : Option Tab) : M Unit := do
  match tab with
  | some tab =>
    if tab.url ≠ "" ∧ includesTwitch tab.url = true then
      let data ← storageGet [STORAGE_KEYS.TIMERS_ACTIVE]
      if ¬ truthy (data STORAGE_KEYS.TIMERS_ACTIVE) = true then
        startTimers
  | none => pure ()

/-- A message received by the background: `{action, actionType}`. -/
structure Message where
  action : String
  actionType : String
  deriving DecidableEq

/-- What `handleMessage` hands to `sendResponse`. -/
inductive Response where
  | success
  | status (s : Status)
  | unrecognized
  | failed (err : Err)
  deriving DecidableEq

/-- The method `handleMessage(message, sender, sendResponse)`; the answer is the argument
of `sendResponse`, and `senderTab` is `sender.tab`. -/
def handleMessage (message : Message) (senderTab : Option Tab) : M Response := do
  try
    if message.action = "start_timers" then
      startTimers
      return .success
    else if message.action = "stop_timers" then
      stopTimers
      return .success
    else if message.action = "force_action" then
      forceAction message.actionType
      return .success
    else if message.action = "get_status" then
      let status ← getStatus
      return .status status
    else if message.action = "page_loaded" then
      handlePageLoaded senderTab
      return .success
    else
      return .unrecognized
  catch error =>
    consoleLog
    return .failed error

/-! ## `TwitchUtils` (`src/utils.js`) -/

/-- The element `array[i]` of JavaScript; `none` is `undefined`. -/
def jsIndex {α : Type} (array : List α) (i : ℤ) : Option α :=
  if i < 0 then none else array[i.toNat]?

/-- The function `TwitchUtils.getCurrentChannel()`, as a function of
`window.location.pathname`: the regular expression `/^\/([^\/]+)$/`. -/
def getCurrentChannel (pathname : String) : Option String :=
  match pathname.toList with
  | '/' :: rest => if rest ≠ [] ∧ rest.all (fun c => c != '/') = true then some (String.mk rest) else none
  | _ => none

/-- The function `TwitchUtils.selectPopularChannel(channels)`, as a function of its draw.
The arithmetic on `channels.length`, an integer below `2 ^ 32`, is exact. -/
def selectPopularChannel {α : Type} (r : ℚ) (channels : List α) : Option α :=
  let topChannelsCount : ℤ := min 5 (channels.length : ℤ)
  let selectedIndex := randomBetween r 0 (topChannelsCount - 1)
  jsIndex channels selectedIndex

/-- The function `TwitchUtils.selectSmallerChannel(channels)`, as a function of its draw.
The arithmetic on `channels.length`, an integer below `2 ^ 32`, is exact. -/
def selectSmallerChannel {α : Type} (r : ℚ) (channels : List α) : Option α :=
  let startIndex : ℤ := max 0 ((channels.length : ℤ) - 5)
  let selectedIndex := randomBetween r startIndex ((channels.length : ℤ) - 1)
  jsIndex channels selectedIndex

/-- The function `TwitchUtils.selectChannelWithAI(channels)`, as a function of its two
draws: `random` decides the branch, `r` is the draw of the index. A missing list
(`null`, `undefined`) is `none`; the answer `none` is `null` or `undefined`. The
literals `0.4` and `0.7` are the Numbers `fl 0.4` and `fl 0.7`. -/
def selectChannelWithAI {α : Type} (random r : ℚ) (channels : Option (List α)) : Option α :=
  match channels with
  | none => none
  | some channels =>
    if channels.length = 0 then none
    else if random < fl 0.4 then selectPopularChannel r channels
    else if random < fl 0.7 then
      jsIndex channels (randomBetween r 0 ((channels.length : ℤ) - 1))
    else selectSmallerChannel r channels

/-! ## `TwitchNavigator` (`src/content.js`) -/

/-- A candidate found on the page: `{name, href, element}`; `element` stands for the DOM
node. -/
structure ChannelData where
  name : String
  href : String
  element : Nat
  deriving DecidableEq

/-- The deduplicating `filter` of `switchToRandomChannel`: `seen` is the `Set` of
lower-cased names met so far. `toLowerCase` is `String.prototype.toLowerCase`. -/
def dedupeByName (toLowerCase : String → String) :
    List ChannelData → List String → List ChannelData
  | [], _ => []
  | ch :: rest, seen =>
    let key := toLowerCase ch.name
    if key ∈ seen then dedupeByName toLowerCase rest seen
    else ch :: dedupeByName toLowerCase rest (key :: seen)

/-- The candidate list `switchToRandomChannel` selects from: `channels` deduplicated by
name, then without the current channel when `this.originalChannel` is truthy. -/
def filterCandidates (toLowerCase : String → String) (originalChannel : Option String)
    (channels : List ChannelData) : List ChannelData :=
  let channels := dedupeByName toLowerCase channels []
  match originalChannel with
  | some current =>
    if current ≠ "" then
      let currentLower := toLowerCase current
      channels.filter (fun ch => toLowerCase ch.name != currentLower)
    else channels
  | none => channels

/-! ## `PopupController` (`src/popup.js`) -/

/-- The call `array.slice(start)` of JavaScript. -/
def jsSlice {α : Type} (array : List α) (start : ℤ) : List α :=
  let k : ℤ := if start < 0 then max ((array.length : ℤ) + start) 0
    else min start (array.length : ℤ)
  array.drop k.toNat

/-- The method `saveHistoryItem(time, action)`. The expression `result.history || []` is
the stored array, `[]` for a falsy value; `push` on any other value throws. -/
def saveHistoryItem (time action : String) : M Unit := do
  try
    let result ← storageGet ["history"]
    let history ← match result "history" with
      | some (.history items) => pure items
      | other => if truthy other then throw Err.typeError else pure []
    let history := history ++ [{ time := time, action := action, timestamp := ← dateNow }]
    let recentHistory := jsSlice history (-50)
    storageSet [("history", .history recentHistory)]
  catch _ =>
    consoleLog

/-! ## Vocabulary of the statements -/

/-- No platform call is ever rejected. -/
def Env.reliable (e : Env) : Prop := ∀ n c, e.fails n c = false

/-- The platform accepts every alarm creation. -/
def Env.acceptsAlarms (e : Env) : Prop := ∀ n name, e.fails n (.alarmsCreate name) = false

/-- The only platform call that is ever rejected is the delivery of a message. -/
def Env.onlyDeliveryFails (e : Env) : Prop :=
  ∀ n c, e.fails n c = true → ∃ tabId msg, c = .tabsSendMessage tabId msg

/-- The pending alarms named `name`, in the order `chrome.alarms.getAll()` lists them. -/
def World.pending (w : World) (name : String) : List Alarm :=
  w.alarms.filter (fun a => a.name == name)

/-- The computation `m` keeps the property `P` of the world, whatever its outcome. -/
structure Preserves {α : Type} (P : World → Prop) (m : M α) : Prop where
  run : ∀ e w, P w → P (m e w).2

/-- An environment in which every alarm creation is rejected and nothing else is. -/
def alarmsRejectedEnv : Env :=
  { fails := fun _ c => match c with
      | .alarmsCreate _ => true
      | _ => false
    random := fun _ => 1 / 2
    newTabId := fun n => n }

/-- An environment in which nothing fails and every draw is `1/2`. -/
def calmEnv : Env := { fails := fun _ _ => false, random := fun _ => 1 / 2, newTabId := fun n => n }

/-- A world with one Twitch tab on channel `alice`, an old alarm and an empty store. -/
def sampleWorld : World :=
  { store := fun _ => none
    alarms := [{ name := "tab_close", scheduledTime := 5 }]
    tabs := [{ id := 7, url := "https://www.twitch.tv/alice", active := false }]
    sent := []
    opened := []
    closed := []
    now := 1000
    calls := 0
    draws := 0 }

/-- The string `c` is a single path segment: non-empty, without `/` or `?`. -/
def isChannelSegment (c : String) : Prop :=
  c ≠ "" ∧ ∀ ch ∈ c.toList, ch ≠ '/' ∧ ch ≠ '?'

/-- An environment in which every message to a content script goes undelivered and
nothing else fails. -/
def deafEnv : Env :=
  { fails := fun _ c => match c with
      | .tabsSendMessage _ _ => true
      | _ => false
    random := fun _ => 1 / 2
    newTabId := fun n => n }

/-- The sample world without any Twitch tab. -/
def tablessWorld : World := { sampleWorld with tabs := [] }

/-- The sample world as a restarted service worker finds it when timers were running. -/
def restartedWorld : World :=
  { sampleWorld with store := fun k => if k = "timers_active" then some (.bool true) else none }

/-- The sample world while the session sits on a switched-to channel. -/
def switchedWorld : World :=
  { sampleWorld with
    store := fun k =>
      if k = "original_channel" then some (.str "alice")
      else if k = "current_state" then some (.str "channel_switched")
      else if k = "timers_active" then some (.bool true)
      else none }

/-- The sample world right after installation, with the popup's `autoStart` box unticked. -/
def installedWorld : World :=
  { sampleWorld with
    alarms := []
    store := fun k =>
      if k = "timers_active" then some (.bool false)
      else if k = "current_state" then some (.str "idle")
      else if k = "last_action" then some .null
      else if k = "autoStart" then some (.bool false)
      else none }

/-- The sample world with no alarm pending. -/
def blankWorld : World := { sampleWorld with alarms := [] }

/-- The platform fires a pending alarm: the one-shot alarm leaves the alarm set, then
the `onAlarm` listener runs `handleAlarm`. -/
def fireAlarm (alarm : Alarm) : M Unit := do
  modifyWorld fun w => { w with alarms := w.alarms.filter (fun a => a.name != alarm.name) }
  handleAlarm alarm

/-- The worlds the manager can reach from an installed extension without pending alarm,
by `startTimers`, `stopTimers`, the firing of a pending alarm, `forceAction` (in a world
where `forceAllowed` holds), `page_loaded`, and the passing of time with tabs opening,
closing and navigating in between. -/
inductive Reachable (e : Env) (forceAllowed : World → Prop) : World → Prop where
  | installed (w : World) (h : w.alarms = []) :
      Reachable e forceAllowed (setupInitialState e w).2
  | start {w : World} : Reachable e forceAllowed w → Reachable e forceAllowed (startTimers e w).2
  | stop {w : World} : Reachable e forceAllowed w → Reachable e forceAllowed (stopTimers e w).2
  | fire {w : World} (alarm : Alarm) (h : alarm ∈ w.alarms) :
      Reachable e forceAllowed w → Reachable e forceAllowed (fireAlarm alarm e w).2
  | force {w : World} (actionType : String) (h : forceAllowed w) :
      Reachable e forceAllowed w → Reachable e forceAllowed (forceAction actionType e w).2
  | pageLoaded {w : World} (tab : Option Tab) :
      Reachable e forceAllowed w → Reachable e forceAllowed (handlePageLoaded tab e w).2
  | elapse {w : World} (now : Nat) (tabs : List Tab) :
      Reachable e forceAllowed w → Reachable e forceAllowed { w with now := now, tabs := tabs }

/-- The persisted state is not `idle`. -/
def World.notIdle (w : World) : Prop := w.store STORAGE_KEYS.CURRENT_STATE ≠ some (.str "idle")

/-- Idle worlds own no alarm. -/
def World.idleOwnsNothing (w : World) : Prop :=
  w.store STORAGE_KEYS.CURRENT_STATE = some (.str "idle") → w.alarms = []

/-- The sample world with its Twitch tab on the directory of followed channels. -/
def directoryWorld : World :=
  { sampleWorld with
    tabs := [{ id := 7, url := "https://www.twitch.tv/directory/following", active := true }] }

/-- The sample world with its Twitch tab on the front page. -/
def frontPageWorld : World :=
  { sampleWorld with tabs := [{ id := 7, url := "https://www.twitch.tv/", active := true }] }

/-- Lower-casing of the ASCII letters: the sample `toLowerCase` of the examples. -/
def asciiLower (s : String) : String := String.mk (s.toList.map Char.toLower)

/-- An environment in which every tab creation is rejected and nothing else is. -/
def noNewTabEnv : Env :=
  { fails := fun _ c => match c with
      | .tabsCreate => true
      | _ => false
    random := fun _ => 1 / 2
    newTabId := fun n => n }

/-- The sample world while an ephemeral tab, id 105, is open. -/
def tabOpenedWorld : World :=
  { sampleWorld with store := fun k => if k = "temp_tab_id" then some (.num 105) else none }

/-- The part of the content script's state that `returnToChannel` touches:
`this.isNavigating` and `window.location.href`. -/
structure PageState where
  isNavigating : Bool
  href : String
  deriving DecidableEq

/-- The method `returnToChannel(channelName)` of `src/content.js`; `none` is a missing
channel name. The guard `!channelName || this.isNavigating` returns at once; otherwise
the page navigates to the channel and, in `finally`, `isNavigating` is reset. -/
def returnToChannel (channelName : Option String) (page : PageState) : PageState :=
  match channelName with
  | some channelName =>
    if channelName = "" ∨ page.isNavigating = true then page
    else
      let channelUrl := "https://www.twitch.tv/" ++ channelName
      { isNavigating := false, href := channelUrl }
  | none => page

/-- The sample world of a service worker restarted while the session sits on a
switched-to channel with an ephemeral tab open: a `return_to_original` and a
`tab_close` alarm are pending. -/
def midSwitchWorld : World :=
  { sampleWorld with
    alarms := [{ name := "return_to_original", scheduledTime := 600000 },
      { name := "tab_close", scheduledTime := 300000 },
      { name := "channel_switch", scheduledTime := 20000000 }]
    store := fun k =>
      if k = "timers_active" then some (.bool true)
      else if k = "current_state" then some (.str "channel_switched")
      else if k = "original_channel" then some (.str "alice")
      else if k = "temp_tab_id" then some (.num 105)
      else none }

/-- A content script on a switched-to channel, not navigating. -/
def samplePage : PageState := { isNavigating := false, href := "https://www.twitch.tv/bob" }

/-- Ten candidates, named by their index. -/
def tenCandidates : List String :=
  ["c0", "c1", "c2", "c3", "c4", "c5", "c6", "c7", "c8", "c9"]

/-- A stored history that has reached the cap: fifty entries, the oldest first. -/
def fullHistory : List HistoryItem :=
  (List.range 50).map fun i => { time := "09:00", action := "tab_opened", timestamp := i }

/-- The sample world with the full history persisted. -/
def fullHistoryWorld : World :=
  { sampleWorld with
    store := fun k => if k = "history" then some (.history fullHistory) else none }

/-! ## Rounding to the nearest Number -/

theorem roundHalfEven_cases (y : ℚ) :
    roundHalfEven y = ⌊y⌋ ∨ roundHalfEven y = ⌊y⌋ + 1 := by
  unfold roundHalfEven
  split_ifs <;> simp

theorem roundHalfEven_abs_sub (y : ℚ) : |(roundHalfEven y : ℚ) - y| ≤ 1 / 2 := by
  have h1 : (⌊y⌋ : ℚ) ≤ y := Int.floor_le y
  have h2 : y < (⌊y⌋ : ℚ) + 1 := Int.lt_floor_add_one y
  unfold roundHalfEven
  rw [abs_le]
  split_ifs with ha hb hc <;> push_cast <;> constructor <;> linarith

theorem roundHalfEven_nonneg (y : ℚ) (h : 0 ≤ y) : 0 ≤ roundHalfEven y := by
  have h0 : 0 ≤ ⌊y⌋ := Int.floor_nonneg.mpr h
  rcases roundHalfEven_cases y with h1 | h1 <;> omega

theorem roundHalfEven_intCast (n : ℤ) : roundHalfEven (n : ℚ) = n := by
  simp [roundHalfEven]

theorem roundHalfEven_eq_of_abs_lt (y : ℚ) (n : ℤ) (h : |y - n| < 1 / 2) :
    roundHalfEven y = n := by
  have h1 := roundHalfEven_abs_sub y
  rw [abs_lt] at h
  rw [abs_le] at h1
  have h2 : ((roundHalfEven y - n : ℤ) : ℚ) < 1 := by push_cast; linarith
  have h3 : (-1 : ℚ) < ((roundHalfEven y - n : ℤ) : ℚ) := by push_cast; linarith
  have h4 : roundHalfEven y - n < 1 := by exact_mod_cast h2
  have h5 : -1 < roundHalfEven y - n := by exact_mod_cast h3
  omega

theorem roundHalfEven_tie_up (y : ℚ) (n : ℤ) (h : y = n + 1 / 2) (hodd : n % 2 = 1) :
    roundHalfEven y = n + 1 := by
  have hf : ⌊y⌋ = n := by
    rw [Int.floor_eq_iff, h]
    constructor <;> linarith
  unfold roundHalfEven
  rw [hf, h]
  have : ¬ (n % 2 = 0) := by omega
  norm_num [this]

theorem roundHalfEven_tie_down (y : ℚ) (n : ℤ) (h : y = n + 1 / 2) (heven : n % 2 = 0) :
    roundHalfEven y = n := by
  have hf : ⌊y⌋ = n := by
    rw [Int.floor_eq_iff, h]
    constructor <;> linarith
  unfold roundHalfEven
  rw [hf, h]
  norm_num [heven]

theorem ulp_pos (x : ℚ) : 0 < ulp x := by
  unfold ulp
  positivity

theorem fl_abs_sub_le (x : ℚ) : |fl x - x| ≤ ulp x / 2 := by
  have hu := ulp_pos x
  have h := roundHalfEven_abs_sub (x / ulp x)
  have he : fl x - x = ((roundHalfEven (x / ulp x) : ℚ) - x / ulp x) * ulp x := by
    unfold fl
    field_simp
  rw [he, abs_mul, abs_of_pos hu]
  calc |(roundHalfEven (x / ulp x) : ℚ) - x / ulp x| * ulp x ≤ 1 / 2 * ulp x :=
        mul_le_mul_of_nonneg_right h hu.le
    _ = ulp x / 2 := by ring

theorem fl_nonneg (x : ℚ) (h : 0 ≤ x) : 0 ≤ fl x := by
  unfold fl
  have h1 : 0 ≤ roundHalfEven (x / ulp x) :=
    roundHalfEven_nonneg _ (div_nonneg h (ulp_pos x).le)
  have h2 : (0 : ℚ) ≤ (roundHalfEven (x / ulp x) : ℚ) := by exact_mod_cast h1
  exact mul_nonneg h2 (ulp_pos x).le

theorem fl_zero : fl 0 = 0 := by
  simp [fl, roundHalfEven]

/-- The binade of a positive rational between two consecutive powers of two. -/
theorem log_eq_of_bounds (x : ℚ) (e : ℤ) (h1 : (2 : ℚ) ^ e ≤ x) (h2 : x < (2 : ℚ) ^ (e + 1)) :
    Int.log 2 x = e := by
  have hx : 0 < x := lt_of_lt_of_le (by positivity) h1
  have ha : e ≤ Int.log 2 x := by
    rw [← Int.zpow_le_iff_le_log (by norm_num) hx]
    simpa using h1
  have hb : Int.log 2 x < e + 1 := by
    rw [← Int.lt_zpow_iff_log_lt (by norm_num) hx]
    simpa using h2
  omega

theorem ulp_eq (x : ℚ) (e : ℤ) (h1 : (2 : ℚ) ^ e ≤ |x|) (h2 : |x| < (2 : ℚ) ^ (e + 1))
    (he : -1022 ≤ e) : ulp x = (2 : ℚ) ^ (e - 52) := by
  unfold ulp
  rw [log_eq_of_bounds |x| e h1 h2, max_eq_left he]

/-- Evaluation of `fl` in a known binade. -/
theorem fl_eq (x : ℚ) (e n : ℤ) (h1 : (2 : ℚ) ^ e ≤ |x|) (h2 : |x| < (2 : ℚ) ^ (e + 1))
    (he : -1022 ≤ e) (hn : roundHalfEven (x / (2 : ℚ) ^ (e - 52)) = n) :
    fl x = (n : ℚ) * (2 : ℚ) ^ (e - 52) := by
  unfold fl
  rw [ulp_eq x e h1 h2 he, hn]

/-- A multiple of the spacing is left alone by `fl`. -/
theorem fl_of_mul_ulp (x : ℚ) (m : ℤ) (h : x = (m : ℚ) * ulp x) : fl x = x := by
  have hu := ulp_pos x
  have hq : x / ulp x = (m : ℚ) := by
    rw [div_eq_iff hu.ne']
    exact h
  unfold fl
  rw [hq, roundHalfEven_intCast]
  exact h.symm

theorem ulp_le_zpow (x : ℚ) (n t : ℤ) (hx : x = (n : ℚ) * (2 : ℚ) ^ t) (h0 : n ≠ 0)
    (hn : |n| < 2 ^ 53) (ht : -1074 ≤ t) :
    max (Int.log 2 |x|) (-1022) - 52 ≤ t := by
  · have hpos : 0 < |x| := by
      rw [hx]
      have : (n : ℚ) ≠ 0 := by exact_mod_cast h0
      positivity
    have hlt : |x| < (2 : ℚ) ^ (t + 53) := by
      rw [hx, abs_mul, abs_of_pos (by positivity : (0 : ℚ) < 2 ^ t), zpow_add₀ (by norm_num),
        mul_comm]
      have h53 : |(n : ℚ)| < 2 ^ (53 : ℤ) := by
        have h : ((|n| : ℤ) : ℚ) < ((2 ^ 53 : ℤ) : ℚ) := by exact_mod_cast hn
        rw [Int.cast_abs] at h
        norm_num at h ⊢
        exact h
      exact mul_lt_mul_of_pos_left h53 (by positivity)
    have hlog : Int.log 2 |x| < t + 53 := by
      rw [← Int.lt_zpow_iff_log_lt (by norm_num) hpos]
      simpa using hlt
    omega

/-- An integer of fewer than 54 bits times a power of two, in range, is a Number. -/
theorem fl_exact (n t : ℤ) (hn : |n| < 2 ^ 53) (ht : -1074 ≤ t) :
    fl ((n : ℚ) * (2 : ℚ) ^ t) = (n : ℚ) * (2 : ℚ) ^ t := by
  rcases eq_or_ne n 0 with h0 | h0
  · simp [h0, fl_zero]
  have hle := ulp_le_zpow _ n t rfl h0 hn ht
  set x : ℚ := (n : ℚ) * (2 : ℚ) ^ t with hx
  set s : ℤ := max (Int.log 2 |x|) (-1022) - 52 with hs
  obtain ⟨d, hd⟩ := Int.eq_ofNat_of_zero_le (sub_nonneg.mpr hle)
  apply fl_of_mul_ulp x (n * 2 ^ d)
  have hu : ulp x = (2 : ℚ) ^ s := rfl
  have ht' : t = s + d := by omega
  rw [hu, hx, ht', zpow_add₀ (by norm_num)]
  push_cast
  rw [zpow_natCast]
  ring

theorem fl_intCast (n : ℤ) (h : |n| ≤ 2 ^ 53) : fl (n : ℚ) = (n : ℚ) := by
  rcases lt_or_eq_of_le h with h1 | h1
  · simpa using fl_exact n 0 h1 (by norm_num)
  · rcases abs_eq (by norm_num : (0 : ℤ) ≤ 2 ^ 53) |>.mp h1 with h2 | h2
    · have := fl_exact 1 53 (by norm_num) (by norm_num)
      rw [h2]
      norm_num at this ⊢
      exact this
    · have := fl_exact (-1) 53 (by norm_num) (by norm_num)
      rw [h2]
      norm_num at this ⊢
      exact this

theorem isDouble_of_div (j : ℤ) (k : ℕ) (hj : |j| < 2 ^ 53) (hk : k ≤ 1074) :
    isDouble ((j : ℚ) / 2 ^ k) := by
  have := fl_exact j (-(k : ℤ)) hj (by omega)
  unfold isDouble
  rw [zpow_neg, zpow_natCast, ← div_eq_mul_inv] at this
  exact this

/-- A Number below one is at most `1 - 2 ^ (-53)`. -/
theorem isDraw_le (r : ℚ) (h : isDraw r) : r ≤ 1 - 1 / 2 ^ 53 := by
  obtain ⟨hd, h0, h1⟩ := h
  rcases eq_or_lt_of_le h0 with hz | hpos
  · rw [← hz]; norm_num
  · have hlog : Int.log 2 |r| < 0 := by
      rw [← Int.lt_zpow_iff_log_lt (by norm_num) (abs_pos.mpr hpos.ne'), abs_of_pos hpos]
      simpa using h1
    rcases eq_or_lt_of_le (Int.lt_iff_add_one_le.mp hlog) with he | he
    · have hu : ulp r = 1 / 2 ^ 53 := by
        unfold ulp
        have : Int.log 2 |r| = -1 := by omega
        rw [this]
        norm_num
      unfold isDouble fl at hd
      rw [hu] at hd
      set m := roundHalfEven (r / (1 / 2 ^ 53)) with hm
      have hm1 : (m : ℚ) < 2 ^ 53 := by
        rw [← hd] at h1
        have := (lt_div_iff₀ (by positivity : (0 : ℚ) < 1 / 2 ^ 53)).mpr h1
        simpa using this
      have hm2 : m < 2 ^ 53 := by exact_mod_cast hm1
      have hm3 : (m : ℚ) ≤ 2 ^ 53 - 1 := by
        have : m ≤ 2 ^ 53 - 1 := by omega
        exact_mod_cast this
      rw [← hd]
      calc (m : ℚ) * (1 / 2 ^ 53) ≤ (2 ^ 53 - 1) * (1 / 2 ^ 53) :=
            mul_le_mul_of_nonneg_right hm3 (by positivity)
        _ = 1 - 1 / 2 ^ 53 := by norm_num
    · have hlt : r < (2 : ℚ) ^ (-1 : ℤ) := by
        have := Int.lt_zpow_succ_log_self (by norm_num : 1 < 2) |r|
        rw [abs_of_pos hpos] at this
        have hmono : ((2 : ℕ) : ℚ) ^ (Int.log 2 |r| + 1) ≤ ((2 : ℕ) : ℚ) ^ (-1 : ℤ) :=
          zpow_le_zpow_right₀ (by norm_num) (by rw [abs_of_pos hpos] at *; omega)
        rw [abs_of_pos hpos] at hmono
        have := lt_of_lt_of_le this hmono
        simpa using this
      have h2 : (2 : ℚ) ^ (-1 : ℤ) = 1 / 2 := by norm_num
      rw [h2] at hlt
      have : (1 : ℚ) / 2 ≤ 1 - 1 / 2 ^ 53 := by norm_num
      linarith

/-- The rounded product of a draw and a positive count stays below the count. -/
theorem fl_mul_draw (r : ℚ) (k : ℤ) (hr : isDraw r) (hk : 1 ≤ k) :
    0 ≤ fl (r * k) ∧ fl (r * k) < k := by
  have hk' : (1 : ℚ) ≤ (k : ℚ) := by exact_mod_cast hk
  have hr1 := isDraw_le r hr
  have hy0 : 0 ≤ r * k := mul_nonneg hr.2.1 (by linarith)
  refine ⟨fl_nonneg _ hy0, ?_⟩
  have herr := (abs_le.mp (fl_abs_sub_le (r * k))).2
  have hy1 : r * k ≤ (1 - 1 / 2 ^ 53) * k := mul_le_mul_of_nonneg_right hr1 (by linarith)
  rcases eq_or_lt_of_le hy0 with hz | hpos
  · rw [← hz, fl_zero]; linarith
  · rcases le_or_lt (-1022) (Int.log 2 |r * k|) with he | he
    · have hu : ulp (r * k) ≤ r * k * (1 / 2 ^ 52) := by
        unfold ulp
        rw [max_eq_left he, zpow_sub₀ (by norm_num), div_eq_mul_one_div]
        have h1 := Int.zpow_log_le_self (by norm_num : 1 < 2) (abs_pos.mpr hpos.ne')
        rw [abs_of_pos hpos] at h1 ⊢
        have h2 : (2 : ℚ) ^ Int.log 2 (r * k) ≤ r * k := by simpa using h1
        have h3 : (1 : ℚ) / 2 ^ (52 : ℤ) = 1 / 2 ^ 52 := by norm_num
        rw [h3]
        exact mul_le_mul_of_nonneg_right h2 (by positivity)
      have : fl (r * k) ≤ (1 - 1 / 2 ^ 53) * k * (1 + 1 / 2 ^ 53) := by
        calc fl (r * k) ≤ r * k + ulp (r * k) / 2 := by linarith
          _ ≤ r * k + r * k * (1 / 2 ^ 52) / 2 := by linarith
          _ = r * k * (1 + 1 / 2 ^ 53) := by ring
          _ ≤ (1 - 1 / 2 ^ 53) * k * (1 + 1 / 2 ^ 53) :=
              mul_le_mul_of_nonneg_right hy1 (by positivity)
      have h4 : (1 - 1 / 2 ^ 53) * (k : ℚ) * (1 + 1 / 2 ^ 53) < k := by
        have : (1 - 1 / 2 ^ 53) * (k : ℚ) * (1 + 1 / 2 ^ 53)
            = k - k * (1 / 2 ^ 106) := by ring
        rw [this]
        have : (0 : ℚ) < k * (1 / 2 ^ 106) := by positivity
        linarith
      linarith
    · have hu : ulp (r * k) = (2 : ℚ) ^ (-1074 : ℤ) := by
        unfold ulp
        rw [max_eq_right he.le]
        norm_num
      have hlt : r * k < (2 : ℚ) ^ (-1022 : ℤ) := by
        have h1 := Int.lt_zpow_succ_log_self (by norm_num : 1 < 2) |r * k|
        have hmono : ((2 : ℕ) : ℚ) ^ (Int.log 2 |r * k| + 1) ≤ ((2 : ℕ) : ℚ) ^ (-1022 : ℤ) :=
          zpow_le_zpow_right₀ (by norm_num) (by omega)
        have := lt_of_lt_of_le h1 hmono
        rw [abs_of_pos hpos] at this
        simpa using this
      have h5 : (2 : ℚ) ^ (-1022 : ℤ) + (2 : ℚ) ^ (-1074 : ℤ) / 2 < 1 := by
        have a1 : (2 : ℚ) ^ (-1022 : ℤ) ≤ (2 : ℚ) ^ (-2 : ℤ) :=
          zpow_le_zpow_right₀ (by norm_num) (by norm_num)
        have a2 : (2 : ℚ) ^ (-1074 : ℤ) ≤ (2 : ℚ) ^ (-2 : ℤ) :=
          zpow_le_zpow_right₀ (by norm_num) (by norm_num)
        have a3 : (2 : ℚ) ^ (-2 : ℤ) = 1 / 4 := by norm_num
        linarith
      rw [hu] at herr
      linarith

theorem floor_fl_mul_draw (r : ℚ) (k : ℤ) (hr : isDraw r) (hk : 1 ≤ k) :
    0 ≤ ⌊fl (r * k)⌋ ∧ ⌊fl (r * k)⌋ < k := by
  obtain ⟨h0, h1⟩ := fl_mul_draw r k hr hk
  exact ⟨Int.floor_nonneg.mpr h0, Int.floor_lt.mpr h1⟩

theorem fl_of_int (q : ℚ) (n : ℤ) (hq : q = (n : ℚ)) (hn : |n| ≤ 2 ^ 53) :
    fl q = (n : ℚ) := by
  rw [hq]
  exact fl_intCast n hn

theorem isDraw_half : isDraw (1 / 2) := by
  refine ⟨?_, by norm_num, by norm_num⟩
  have := isDouble_of_div 1 1 (by norm_num) (by norm_num)
  norm_num at this
  exact this

theorem fl_two_fifths : fl 0.4 = 3602879701896397 / 9007199254740992 := by
  rw [fl_eq 0.4 (-2) 7205759403792794 (by norm_num [abs_of_pos]) (by norm_num [abs_of_pos])
    (by norm_num) (roundHalfEven_eq_of_abs_lt _ _ (by norm_num [abs_lt]))]
  norm_num

theorem fl_seven_tenths : fl 0.7 = 3152519739159347 / 4503599627370496 := by
  rw [fl_eq 0.7 (-1) 6305039478318694 (by norm_num [abs_of_pos]) (by norm_num [abs_of_pos])
    (by norm_num) (roundHalfEven_eq_of_abs_lt _ _ (by norm_num [abs_lt]))]
  norm_num

theorem isDraw_seven_tenths : isDraw (3152519739159347 / 4503599627370496) := by
  refine ⟨?_, by norm_num, by norm_num⟩
  have := isDouble_of_div 3152519739159347 52 (by norm_num) (by norm_num)
  norm_num at this ⊢
  exact this

/-- The product of the Number `0.7` and ten is a tie, rounded up to seven. -/
theorem fl_seven_tenths_mul_ten :
    fl (3152519739159347 / 4503599627370496 * 10) = 7 := by
  rw [fl_eq _ 2 7881299347898368 (by norm_num [abs_of_pos]) (by norm_num [abs_of_pos])
    (by norm_num) (by
      have := roundHalfEven_tie_up (3152519739159347 / 4503599627370496 * 10 / 2 ^ (2 - 52 : ℤ))
        7881299347898367 (by norm_num) (by norm_num)
      simpa using this)]
  norm_num

/-! ## Running the monad -/

@[simp]
theorem pure_run {α : Type} (a : α) (e : Env) (w : World) :
    (pure a : M α) e w = (.ok a, w) := rfl

theorem bind_run {α β : Type} (m : M α) (f : α → M β) (e : Env) (w : World) :
    (m >>= f) e w = match m e w with
      | (.ok a, w') => f a e w'
      | (.error err, w') => (.error err, w') := rfl

theorem tryCatch_run {α : Type} (m : M α) (h : Err → M α) (e : Env) (w : World) :
    (tryCatch m h) e w = match m e w with
      | (.ok a, w') => (.ok a, w')
      | (.error err, w') => h err e w' := rfl

/-- A `try` block whose handler only logs always resolves, in the world the block left. -/
theorem tryCatch_consoleLog_run (m : M Unit) (e : Env) (w : World) :
    (tryCatch m (fun _ => consoleLog)) e w = (.ok (), (m e w).2) := by
  rw [tryCatch_run]
  rcases hm : m e w with ⟨_ | _, w'⟩ <;> simp [consoleLog]

/-- A logged `try` block followed by `k`: `k` runs in the world the block left. -/
theorem tryLog_then_run {β : Type} (m : M Unit) (k : M β) (e : Env) (w : World) :
    ((tryCatch m (fun _ => consoleLog)) >>= fun _ => k) e w = k e (m e w).2 := by
  rw [bind_run, tryCatch_consoleLog_run]

theorem calmEnv_reliable : calmEnv.reliable := fun _ _ => rfl

theorem calmEnv_randomOk : calmEnv.randomOk := fun _ => isDraw_half

theorem deafEnv_randomOk : deafEnv.randomOk := fun _ => isDraw_half

theorem deafEnv_onlyDeliveryFails : deafEnv.onlyDeliveryFails := by
  intro n c hc
  cases c <;> simp [deafEnv] at hc ⊢

theorem reliable_acceptsAlarms {e : Env} (h : e.reliable) : e.acceptsAlarms :=
  fun n _ => h n _

theorem reliable_onlyDeliveryFails {e : Env} (h : e.reliable) : e.onlyDeliveryFails := by
  intro n c hc
  rw [h n c] at hc
  exact absurd hc (by decide)

/-! ## Random intervals -/

theorem floor_draw_bounds (r : ℚ) (min max : ℤ) (hr : isDraw r) (hmm : min ≤ max) :
    0 ≤ ⌊fl (r * ((max - min + 1 : ℤ) : ℚ))⌋ ∧
      ⌊fl (r * ((max - min + 1 : ℤ) : ℚ))⌋ ≤ max - min := by
  obtain ⟨h0, h1⟩ := floor_fl_mul_draw r (max - min + 1) hr (by omega)
  exact ⟨h0, by omega⟩

/-- The value drawn by `Math.floor(r * (max - min + 1)) + min` when the bounds are far
below `2 ^ 53`: no operation but the product rounds. -/
theorem draw_value (r : ℚ) (min max : ℤ) (hr : isDraw r) (hmm : min ≤ max)
    (hlo : -2 ^ 51 ≤ min) (hhi : max ≤ 2 ^ 51) :
    fl ((⌊fl (r * fl (fl ((max : ℚ) - min) + 1))⌋ : ℚ) + min)
      = ((min + ⌊fl (r * ((max - min + 1 : ℤ) : ℚ))⌋ : ℤ) : ℚ) := by
  obtain ⟨h0, h1⟩ := floor_draw_bounds r min max hr hmm
  have e1 : fl ((max : ℚ) - min) = ((max - min : ℤ) : ℚ) :=
    fl_of_int _ _ (by push_cast; ring) (abs_le.mpr ⟨by omega, by omega⟩)
  have e2 : fl (((max - min : ℤ) : ℚ) + 1) = ((max - min + 1 : ℤ) : ℚ) :=
    fl_of_int _ _ (by push_cast; ring) (abs_le.mpr ⟨by omega, by omega⟩)
  rw [e1, e2]
  exact fl_of_int _ _ (by push_cast; ring) (abs_le.mpr ⟨by omega, by omega⟩)

theorem randomBetween_eq (r : ℚ) (min max : ℤ) (hr : isDraw r) (hmm : min ≤ max)
    (hlo : -2 ^ 51 ≤ min) (hhi : max ≤ 2 ^ 51) :
    randomBetween r min max = min + ⌊fl (r * ((max - min + 1 : ℤ) : ℚ))⌋ := by
  unfold randomBetween
  rw [draw_value r min max hr hmm hlo hhi, Int.floor_intCast]

/-- The draw of `randomBetween` as an index: a natural number in `[lo, hi]`. -/
theorem randomBetween_index (r : ℚ) (lo hi : ℤ) (hr : isDraw r)
    (hle : -2 ^ 51 ≤ lo ∧ lo ≤ hi ∧ hi ≤ 2 ^ 51) (k : ℤ) (hk : hi - lo + 1 = k) :
    randomBetween r lo hi = lo + ⌊fl (r * (k : ℚ))⌋ ∧ 0 ≤ ⌊fl (r * (k : ℚ))⌋ ∧
      ⌊fl (r * (k : ℚ))⌋ < k := by
  obtain ⟨h0, h1⟩ := floor_draw_bounds r lo hi hr hle.2.1
  subst hk
  exact ⟨randomBetween_eq r lo hi hr hle.2.1 hle.1 hle.2.2, h0, by omega⟩

theorem getRandomInterval_spec (r : ℚ) (min max : ℤ) (unit : String)
    (hr : isDraw r) (hmm : min ≤ max) (hu : unit = "minutes" ∨ unit = "hours")
    (hlo : |min| * unitMs unit ≤ 2 ^ 53) (hhi : |max| * unitMs unit ≤ 2 ^ 53) :
    ∃ v : ℤ, min ≤ v ∧ v ≤ max ∧ v = randomBetween r min max ∧
      getRandomInterval r min max unit = v * unitMs unit := by
  obtain ⟨h0, h1⟩ := floor_draw_bounds r min max hr hmm
  have a1 := le_abs_self min
  have a2 := neg_le_abs min
  have a3 := le_abs_self max
  have a4 := neg_le_abs max
  have hb : -150119987579 ≤ min ∧ max ≤ 150119987579 := by
    rcases hu with rfl | rfl <;> simp only [unitMs, if_true, if_false,
      show ¬ ("hours" = "minutes") by decide] at hlo hhi <;> constructor <;> omega
  have hv := draw_value r min max hr hmm (by omega) (by omega)
  have hrb := randomBetween_eq r min max hr hmm (by omega) (by omega)
  refine ⟨min + ⌊fl (r * ((max - min + 1 : ℤ) : ℚ))⌋, by omega, by omega, hrb.symm, ?_⟩
  set v : ℤ := min + ⌊fl (r * ((max - min + 1 : ℤ) : ℚ))⌋ with hvdef
  have hvlo : min ≤ v := by omega
  have hvhi : v ≤ max := by omega
  unfold getRandomInterval
  simp only [hv]
  rcases hu with rfl | rfl
  · simp only [unitMs, if_true] at hlo hhi ⊢
    have e1 : fl ((v : ℚ) * 60) = ((v * 60 : ℤ) : ℚ) :=
      fl_of_int _ _ (by push_cast; ring) (abs_le.mpr ⟨by omega, by omega⟩)
    have e2 : fl (((v * 60 : ℤ) : ℚ) * 1000) = ((v * 60000 : ℤ) : ℚ) :=
      fl_of_int _ _ (by push_cast; ring) (abs_le.mpr ⟨by omega, by omega⟩)
    rw [e1, e2, Int.floor_intCast]
  · simp only [unitMs, if_true, if_false, show ¬ ("hours" = "minutes") by decide] at hlo hhi ⊢
    have e1 : fl ((v : ℚ) * 60) = ((v * 60 : ℤ) : ℚ) :=
      fl_of_int _ _ (by push_cast; ring) (abs_le.mpr ⟨by omega, by omega⟩)
    have e2 : fl (((v * 60 : ℤ) : ℚ) * 60) = ((v * 3600 : ℤ) : ℚ) :=
      fl_of_int _ _ (by push_cast; ring) (abs_le.mpr ⟨by omega, by omega⟩)
    have e3 : fl (((v * 3600 : ℤ) : ℚ) * 1000) = ((v * 3600000 : ℤ) : ℚ) :=
      fl_of_int _ _ (by push_cast; ring) (abs_le.mpr ⟨by omega, by omega⟩)
    rw [e1, e2, e3, Int.floor_intCast]

/-- The delay handed to `chrome.alarms.create`, converted back to milliseconds, is the
drawn interval. -/
theorem delayInMinutes_ms (x : ℤ) : (x : ℚ) / (1000 * 60) * 60000 = (x : ℚ) := by
  ring

/-! ## Platform calls that are accepted -/

@[simp]
theorem Store.setAll_nil (s : Store) (k : String) : s.setAll [] k = s k := rfl

@[simp]
theorem Store.setAll_cons (s : Store) (k0 : String) (v : JsVal)
    (items : List (String × JsVal)) (k : String) :
    s.setAll ((k0, v) :: items) k = if k = k0 then some v else s.setAll items k := by
  by_cases h : k = k0
  · simp [Store.setAll, List.lookup, h]
  · have : (k == k0) = false := by simpa using h
    simp [Store.setAll, List.lookup, h, this]

@[simp]
theorem Store.getKeys_apply (s : Store) (keys : List String) (k : String) :
    s.getKeys keys k = if k ∈ keys then s k else none := rfl

@[simp]
theorem Store.removeKeys_apply (s : Store) (keys : List String) (k : String) :
    s.removeKeys keys k = if k ∈ keys then none else s k := rfl

theorem odf_ok {e : Env} (h : e.onlyDeliveryFails) (n : Nat) (c : Call)
    (hc : ∀ tabId msg, c ≠ .tabsSendMessage tabId msg) : e.fails n c = false := by
  cases hf : e.fails n c
  · rfl
  · obtain ⟨tabId, msg, rfl⟩ := h n c hf
    exact absurd rfl (hc tabId msg)

theorem platform_run_ok {e : Env} (h : e.onlyDeliveryFails) (c : Call)
    (hc : ∀ tabId msg, c ≠ .tabsSendMessage tabId msg) (w : World) :
    platform c e w = (.ok (), { w with calls := w.calls + 1 }) := by
  simp [platform, odf_ok h _ c hc]

theorem alarmsCreate_run {e : Env} (h : e.acceptsAlarms) (name : String) (d : ℚ) (w : World) :
    alarmsCreate name d e w = (.ok (), { w with
      alarms := replaceAlarm w.alarms name ((w.now : ℚ) + d * 60000)
      calls := w.calls + 1 }) := by
  simp [alarmsCreate, platform, modifyWorld, bind_run, h _ _]

theorem odf_acceptsAlarms {e : Env} (h : e.onlyDeliveryFails) : e.acceptsAlarms :=
  fun n name => odf_ok h n _ (by simp)

theorem alarmsClearAll_run {e : Env} (h : e.onlyDeliveryFails) (w : World) :
    alarmsClearAll e w = (.ok (), { w with alarms := [], calls := w.calls + 1 }) := by
  simp [alarmsClearAll, modifyWorld, bind_run, platform_run_ok h]

theorem alarmsGetAll_run {e : Env} (h : e.onlyDeliveryFails) (w : World) :
    alarmsGetAll e w = (.ok w.alarms, { w with calls := w.calls + 1 }) := by
  simp [alarmsGetAll, getWorld, bind_run, platform_run_ok h]

theorem storageGet_run {e : Env} (h : e.onlyDeliveryFails) (keys : List String) (w : World) :
    storageGet keys e w = (.ok (w.store.getKeys keys), { w with calls := w.calls + 1 }) := by
  simp [storageGet, getWorld, bind_run, platform_run_ok h]

theorem storageSet_run {e : Env} (h : e.onlyDeliveryFails) (items : List (String × JsVal))
    (w : World) :
    storageSet items e w =
      (.ok (), { w with store := w.store.setAll items, calls := w.calls + 1 }) := by
  simp [storageSet, modifyWorld, bind_run, platform_run_ok h]

theorem tabsQuery_run {e : Env} (h : e.onlyDeliveryFails) (w : World) :
    tabsQuery e w = (.ok w.tabs, { w with calls := w.calls + 1 }) := by
  simp [tabsQuery, getWorld, bind_run, platform_run_ok h]

theorem mathRandom_run (e : Env) (w : World) :
    mathRandom e w = (.ok (e.random w.draws), { w with draws := w.draws + 1 }) := rfl

theorem stopTimers_run {e : Env} (h : e.onlyDeliveryFails) (w : World) :
    stopTimers e w = (.ok (), { w with
      alarms := []
      store := w.store.setAll [(STORAGE_KEYS.TIMERS_ACTIVE, .bool false),
        (STORAGE_KEYS.CURRENT_STATE, .str "idle")]
      calls := w.calls + 2 }) := by
  simp [stopTimers, consoleLog, bind_run, alarmsClearAll_run h, storageSet_run h]

theorem startTimers_run {e : Env} (h : e.onlyDeliveryFails) (w : World) :
    startTimers e w = (.ok (), { w with
      alarms := [
        { name := ALARM_NAMES.CHANNEL_SWITCH,
          scheduledTime := (w.now : ℚ) + (getRandomInterval (e.random w.draws) 3 6 "hours" : ℤ) },
        { name := ALARM_NAMES.TAB_OPEN,
          scheduledTime :=
            (w.now : ℚ) + (getRandomInterval (e.random (w.draws + 1)) 1 3 "hours" : ℤ) }]
      store := (w.store.setAll [(STORAGE_KEYS.TIMERS_ACTIVE, .bool false),
          (STORAGE_KEYS.CURRENT_STATE, .str "idle")]).setAll
        [(STORAGE_KEYS.TIMERS_ACTIVE, .bool true), (STORAGE_KEYS.CURRENT_STATE, .str "active")]
      calls := w.calls + 5
      draws := w.draws + 2 }) := by
  unfold startTimers
  rw [tryCatch_consoleLog_run]
  simp [consoleLog, bind_run, stopTimers_run h, storageSet_run h,
    alarmsCreate_run (odf_acceptsAlarms h), mathRandom_run, delayInMinutes_ms, replaceAlarm]

/-! ## Alarms, draws and the runs of the handlers -/

theorem pending_replace_same (w : World) (l : List Alarm) (name : String) (t : ℚ)
    (h : w.alarms = replaceAlarm l name t) :
    w.pending name = [{ name := name, scheduledTime := t }] := by
  simp [World.pending, h, replaceAlarm, List.filter_append, List.filter_filter]

theorem filter_replace_other (l : List Alarm) (name other : String) (t : ℚ)
    (h : name ≠ other) :
    List.filter (fun a : Alarm => a.name == other) (replaceAlarm l name t) =
      l.filter (fun a => a.name == other) := by
  simp only [replaceAlarm, List.filter_append, List.filter_filter]
  have h1 : List.filter (fun a : Alarm => a.name == other)
      [{ name := name, scheduledTime := t }] = [] := by simp [h]
  rw [h1, List.append_nil]
  apply List.filter_congr
  intro a _
  by_cases ha : a.name = other
  · subst ha; simp [Ne.symm h]
  · simp [ha]

theorem filter_replace_same (l : List Alarm) (name : String) (t : ℚ) :
    List.filter (fun a : Alarm => a.name == name) (replaceAlarm l name t) =
      [{ name := name, scheduledTime := t }] := by
  simp [replaceAlarm, List.filter_append, List.filter_filter]

/-- A draw of hours, for bounds as small as those the handlers pass. -/
theorem hours_draw {e : Env} (hr : e.randomOk) (n : Nat) (min max : ℤ)
    (hmm : 0 ≤ min ∧ min ≤ max ∧ max ≤ 1000) :
    ∃ v : ℤ, min ≤ v ∧ v ≤ max ∧ getRandomInterval (e.random n) min max "hours" = v * 3600000 := by
  have hu : unitMs "hours" = 3600000 := by decide
  obtain ⟨v, h1, h2, -, h3⟩ := getRandomInterval_spec (e.random n) min max "hours" (hr n)
    hmm.2.1 (Or.inr rfl) (by rw [hu, abs_of_nonneg hmm.1]; omega)
    (by rw [hu, abs_of_nonneg (le_trans hmm.1 hmm.2.1)]; omega)
  exact ⟨v, h1, h2, by rw [h3, hu]⟩

/-- A draw of minutes, for bounds as small as those the handlers pass. -/
theorem minutes_draw {e : Env} (hr : e.randomOk) (n : Nat) (min max : ℤ)
    (hmm : 0 ≤ min ∧ min ≤ max ∧ max ≤ 1000) :
    ∃ v : ℤ, min ≤ v ∧ v ≤ max ∧ getRandomInterval (e.random n) min max "minutes" = v * 60000 := by
  have hu : unitMs "minutes" = 60000 := by decide
  obtain ⟨v, h1, h2, -, h3⟩ := getRandomInterval_spec (e.random n) min max "minutes" (hr n)
    hmm.2.1 (Or.inl rfl) (by rw [hu, abs_of_nonneg hmm.1]; omega)
    (by rw [hu, abs_of_nonneg (le_trans hmm.1 hmm.2.1)]; omega)
  exact ⟨v, h1, h2, by rw [h3, hu]⟩

theorem scheduleNextChannelSwitch_run {e : Env} (h : e.acceptsAlarms) (w : World) :
    scheduleNextChannelSwitch e w = (.ok (), { w with
      alarms := replaceAlarm w.alarms ALARM_NAMES.CHANNEL_SWITCH
        ((w.now : ℚ) + (getRandomInterval (e.random w.draws) 3 6 "hours" : ℤ))
      calls := w.calls + 1
      draws := w.draws + 1 }) := by
  simp [scheduleNextChannelSwitch, bind_run, alarmsCreate_run h, mathRandom_run, delayInMinutes_ms]

theorem scheduleNextTabOpen_run {e : Env} (h : e.acceptsAlarms) (w : World) :
    scheduleNextTabOpen e w = (.ok (), { w with
      alarms := replaceAlarm w.alarms ALARM_NAMES.TAB_OPEN
        ((w.now : ℚ) + (getRandomInterval (e.random w.draws) 1 3 "hours" : ℤ))
      calls := w.calls + 1
      draws := w.draws + 1 }) := by
  simp [scheduleNextTabOpen, bind_run, alarmsCreate_run h, mathRandom_run, delayInMinutes_ms]

theorem tabsCreate_run {e : Env} (h : e.onlyDeliveryFails) (w : World) :
    tabsCreate e w =
      (.ok { id := e.newTabId w.calls, url := "chrome://newtab/", active := true },
        { w with calls := w.calls + 1, opened := w.opened ++ [e.newTabId w.calls] }) := by
  simp [tabsCreate, odf_ok h]

theorem executeTabOpen_run {e : Env} (h : e.onlyDeliveryFails) (w : World) :
    executeTabOpen e w = (.ok (), { w with
      store := w.store.setAll [("temp_tab_id", .num (e.newTabId w.calls)),
        (STORAGE_KEYS.LAST_ACTION, .action "tab_opened" w.now (some (e.newTabId w.calls)))]
      alarms := replaceAlarm
        (replaceAlarm w.alarms ALARM_NAMES.TAB_CLOSE
          ((w.now : ℚ) + (getRandomInterval (e.random w.draws) 3 7 "minutes" : ℤ)))
        ALARM_NAMES.TAB_OPEN
        ((w.now : ℚ) + (getRandomInterval (e.random (w.draws + 1)) 1 3 "hours" : ℤ))
      opened := w.opened ++ [e.newTabId w.calls]
      calls := w.calls + 4
      draws := w.draws + 2 }) := by
  unfold executeTabOpen
  rw [tryLog_then_run]
  simp [bind_run, tabsCreate_run h, mathRandom_run, alarmsCreate_run (odf_acceptsAlarms h),
    dateNow, storageSet_run h, consoleLog, scheduleNextTabOpen_run (odf_acceptsAlarms h),
    delayInMinutes_ms]

theorem extractChannelFromUrl_channel_page (c : String) (hc : isChannelSegment c) :
    extractChannelFromUrl ("https://www.twitch.tv/" ++ c) = some c := by
  obtain ⟨hne, hch⟩ := hc
  have hdata : c.data ≠ [] := by
    intro h
    apply hne
    cases c
    simp_all
  have htake : List.takeWhile (fun ch => ch != '/' && ch != '?') c.data = c.data := by
    rw [List.takeWhile_eq_self_iff]
    intro ch hmem
    have := hch ch hmem
    simp [this.1, this.2]
  have hurl : ("https://www.twitch.tv/" ++ c).toList =
      'h' :: 't' :: 't' :: 'p' :: 's' :: ':' :: '/' :: '/' :: 'w' :: 'w' :: 'w' :: '.' ::
        't' :: 'w' :: 'i' :: 't' :: 'c' :: 'h' :: '.' :: 't' :: 'v' :: '/' :: c.data := by
    rw [String.toList, String.data_append]
    rfl
  have hpre : "twitch.tv/".toList =
      ['t', 'w', 'i', 't', 'c', 'h', '.', 't', 'v', '/'] := rfl
  unfold extractChannelFromUrl
  rw [hurl]
  simp [matchChannel, matchChannelHere, hpre, htake, hdata]

/-- The run of `executeChannelSwitch` from a single tab on a channel page, when nothing
but the delivery of the message can fail. -/
theorem executeChannelSwitch_run {e : Env} (h : e.onlyDeliveryFails) (w : World) (t : Tab)
    (c : String) (ht : w.tabs = [t]) (hc : extractChannelFromUrl t.url = some c)
    (hne : c ≠ "") :
    executeChannelSwitch e w = (.ok (), { w with
      store := (w.store.setAll [(STORAGE_KEYS.ORIGINAL_CHANNEL, .str c)]).setAll
        [(STORAGE_KEYS.CURRENT_STATE, .str "channel_switched"),
          (STORAGE_KEYS.LAST_ACTION, .action "channel_switched" w.now none)]
      alarms := replaceAlarm w.alarms ALARM_NAMES.RETURN_TO_ORIGINAL
        ((w.now : ℚ) + (getRandomInterval (e.random w.draws) 5 20 "minutes" : ℤ))
      sent := w.sent ++
        [⟨t.id, .switch_channel, !e.fails (w.calls + 2) (.tabsSendMessage t.id .switch_channel)⟩]
      calls := w.calls + 5
      draws := w.draws + 1 }) := by
  unfold executeChannelSwitch
  rw [tryCatch_run]
  cases hd : e.fails (w.calls + 2) (.tabsSendMessage t.id .switch_channel) <;>
    cases hact : t.active <;>
    simp [bind_run, tryCatch_run, tabsQuery_run h, ht, saveOriginalChannel, hc, truthy, hne,
      storageSet_run h, tabsSendMessage, hd, hact, consoleLog, mathRandom_run,
      alarmsCreate_run (odf_acceptsAlarms h), dateNow, delayInMinutes_ms]

/-! ## What a `try` block leaves untouched -/

theorem Preserves.pure {α : Type} (P : World → Prop) (a : α) : Preserves P (pure a : M α) :=
  ⟨fun _ _ h => h⟩

theorem Preserves.bind {α β : Type} {P : World → Prop} {m : M α} {f : α → M β}
    (hm : Preserves P m) (hf : ∀ a, Preserves P (f a)) : Preserves P (m >>= f) := by
  refine ⟨fun e w hw => ?_⟩
  rw [bind_run]
  have := hm.run e w hw
  rcases hmw : m e w with ⟨a | a, w'⟩ <;> rw [hmw] at this
  · exact this
  · exact (hf a).run e w' this

theorem Preserves.tryCatch {α : Type} {P : World → Prop} {m : M α} {h : Err → M α}
    (hm : Preserves P m) (hh : ∀ err, Preserves P (h err)) : Preserves P (tryCatch m h) := by
  refine ⟨fun e w hw => ?_⟩
  rw [tryCatch_run]
  have := hm.run e w hw
  rcases hmw : m e w with ⟨a | a, w'⟩ <;> rw [hmw] at this
  · exact (hh a).run e w' this
  · exact this

theorem Preserves.platform {P : World → Prop} (c : Call)
    (hP : ∀ w, P w → P { w with calls := w.calls + 1 }) : Preserves P (platform c) := by
  refine ⟨fun e w hw => ?_⟩
  unfold TwitchNavigator.platform
  split <;> exact hP w hw

theorem Preserves.modifyWorld {P : World → Prop} (f : World → World)
    (hP : ∀ w, P w → P (f w)) : Preserves P (modifyWorld f) :=
  ⟨fun _ w hw => hP w hw⟩

theorem Preserves.getWorld (P : World → Prop) : Preserves P getWorld := ⟨fun _ _ h => h⟩

theorem Preserves.dateNow (P : World → Prop) : Preserves P dateNow := ⟨fun _ _ h => h⟩

theorem Preserves.consoleLog (P : World → Prop) : Preserves P consoleLog := ⟨fun _ _ h => h⟩

theorem Preserves.tabsSendMessage {P : World → Prop} (tabId : Int) (msg : Msg)
    (hP : ∀ w d, P w →
      P { w with calls := w.calls + 1, sent := w.sent ++ [⟨tabId, msg, d⟩] }) :
    Preserves P (tabsSendMessage tabId msg) := by
  refine ⟨fun e w hw => ?_⟩
  unfold TwitchNavigator.tabsSendMessage
  split
  · exact hP w false hw
  · exact hP w true hw

/-- The `try` block of `executeReturnToOriginal` creates no alarm, draws nothing and
takes no time, whichever of its platform calls are rejected. -/
theorem executeReturnToOriginal_try_frame (w0 : World) :
    Preserves (fun w => w.now = w0.now ∧ w.draws = w0.draws ∧ w.alarms = w0.alarms)
      (do
        let data ← storageGet [STORAGE_KEYS.ORIGINAL_CHANNEL]
        let tabs ← tabsQuery
        match tabs, data STORAGE_KEYS.ORIGINAL_CHANNEL with
        | tab0 :: _, some channel =>
          if truthy (some channel) then
            let twitchTab := (tabs.find? (fun t => t.active)).getD tab0
            tabsSendMessage twitchTab.id (.return_to_channel channel)
            storageSet [(STORAGE_KEYS.CURRENT_STATE, .str "returned"),
              (STORAGE_KEYS.LAST_ACTION, .action "returned_to_original" (← dateNow) none)]
        | _, _ => pure ()) := by
  unfold storageGet tabsQuery storageSet
  repeat' first
    | apply Preserves.pure
    | apply Preserves.bind
    | apply Preserves.platform
    | apply Preserves.modifyWorld
    | apply Preserves.getWorld
    | apply Preserves.dateNow
    | apply Preserves.tabsSendMessage
    | intro (_ : _)
    | split
  all_goals assumption

/-! ## Where a failure can escape `handleAlarm` -/

/-- A `try` block resolves when its handler always does. -/
theorem tryCatch_resolves {m : M Unit} {h : Err → M Unit} (e : Env) (w : World)
    (hh : ∀ err w', (h err e w').1 = .ok ()) : (tryCatch m h e w).1 = .ok () := by
  rw [tryCatch_run]
  rcases hm : m e w with ⟨err | a, w'⟩
  · exact hh err w'
  · rfl

/-- As long as the platform accepts every alarm creation, `handleAlarm` resolves whatever
else is rejected: a failure escapes only through a rejected `chrome.alarms.create`. -/
theorem handleAlarm_resolves_of_acceptsAlarms (e : Env) (w : World) (alarm : Alarm)
    (ha : e.acceptsAlarms) : (handleAlarm alarm e w).1 = .ok () := by
  unfold handleAlarm
  simp only [bind_run, consoleLog, pure_run]
  split_ifs
  · unfold executeChannelSwitch
    apply tryCatch_resolves
    intro err w'
    simp [bind_run, consoleLog, scheduleNextChannelSwitch_run ha]
  · unfold executeTabOpen
    rw [tryLog_then_run, scheduleNextTabOpen_run ha]
  · unfold executeTabClose
    rw [tryCatch_consoleLog_run]
  · unfold executeReturnToOriginal
    rw [tryLog_then_run, scheduleNextChannelSwitch_run ha]
  · rfl

/-! ## Lemmas for the tab cycle, the selection policy, the candidates and the history -/

/-- The `try` block of `executeTabClose` touches no alarm, whatever is rejected. -/
theorem executeTabClose_try_frame (alarms : List Alarm) :
    Preserves (fun w => w.alarms = alarms)
      (do
        let data ← storageGet ["temp_tab_id"]
        match data "temp_tab_id" with
        | some tempTabId =>
          if truthy (some tempTabId) then
            tabsRemove tempTabId
            storageRemove ["temp_tab_id"]
            consoleLog
        | none => pure ()) := by
  unfold storageGet tabsRemove storageRemove
  repeat' first
    | apply Preserves.pure
    | apply Preserves.consoleLog
    | apply Preserves.bind
    | apply Preserves.platform
    | apply Preserves.modifyWorld
    | apply Preserves.getWorld
    | intro (_ : _)
    | split
  all_goals assumption

theorem tabsRemove_run {e : Env} (h : e.onlyDeliveryFails) (id : JsVal) (w : World) :
    tabsRemove id e w = (.ok (), { w with closed := w.closed ++ [id], calls := w.calls + 1 }) := by
  simp [tabsRemove, modifyWorld, bind_run, platform_run_ok h]

theorem storageRemove_run {e : Env} (h : e.onlyDeliveryFails) (keys : List String) (w : World) :
    storageRemove keys e w =
      (.ok (), { w with store := w.store.removeKeys keys, calls := w.calls + 1 }) := by
  simp [storageRemove, modifyWorld, bind_run, platform_run_ok h]

theorem jsIndex_of_nonneg {α : Type} (l : List α) (i : ℤ) (h : 0 ≤ i) :
    jsIndex l i = l[i.toNat]? := by
  simp [jsIndex, not_lt.mpr h]

theorem dedupeByName_sublist (low : String → String) (l : List ChannelData) :
    ∀ seen, List.Sublist (dedupeByName low l seen) l := by
  induction l with
  | nil => intro seen; simp [dedupeByName]
  | cons x rest ih =>
    intro seen
    simp only [dedupeByName]
    split
    · exact (ih seen).cons x
    · exact (ih _).cons₂ x

theorem dedupeByName_not_seen (low : String → String) (l : List ChannelData) :
    ∀ seen, ∀ ch ∈ dedupeByName low l seen, low ch.name ∉ seen := by
  induction l with
  | nil => intro seen ch h; simp [dedupeByName] at h
  | cons x rest ih =>
    intro seen ch h
    simp only [dedupeByName] at h
    split at h
    · exact ih seen ch h
    · rename_i hx
      rcases List.mem_cons.mp h with rfl | h
      · exact hx
      · exact fun hmem => ih _ ch h (List.mem_cons_of_mem _ hmem)

theorem dedupeByName_pairwise (low : String → String) (l : List ChannelData) :
    ∀ seen, (dedupeByName low l seen).Pairwise (fun a b => low a.name ≠ low b.name) := by
  induction l with
  | nil => intro seen; simp [dedupeByName]
  | cons x rest ih =>
    intro seen
    simp only [dedupeByName]
    split
    · exact ih seen
    · refine List.pairwise_cons.mpr ⟨fun b hb heq => ?_, ih _⟩
      exact dedupeByName_not_seen low rest _ b hb (heq ▸ List.mem_cons_self _ _)

theorem dedupeByName_complete (low : String → String) (l : List ChannelData) :
    ∀ seen, ∀ ch ∈ l, low ch.name ∉ seen →
      ∃ ch' ∈ dedupeByName low l seen, low ch'.name = low ch.name := by
  induction l with
  | nil => intro seen ch h; simp at h
  | cons x rest ih =>
    intro seen ch h hns
    simp only [dedupeByName]
    split
    · rename_i hx
      rcases List.mem_cons.mp h with rfl | h
      · exact absurd hx hns
      · exact ih seen ch h hns
    · rcases List.mem_cons.mp h with rfl | h
      · exact ⟨ch, List.mem_cons_self _ _, rfl⟩
      · by_cases hk : low ch.name = low x.name
        · exact ⟨x, List.mem_cons_self _ _, hk.symm⟩
        · obtain ⟨ch', hm, he⟩ := ih (low x.name :: seen) ch h
            (by simp only [List.mem_cons, not_or]; exact ⟨hk, hns⟩)
          exact ⟨ch', List.mem_cons_of_mem _ hm, he⟩

theorem dedupeByName_first (low : String → String) (l : List ChannelData) :
    ∀ seen, ∀ ch ∈ dedupeByName low l seen,
      l.find? (fun x => low x.name == low ch.name) = some ch := by
  induction l with
  | nil => intro seen ch h; simp [dedupeByName] at h
  | cons x rest ih =>
    intro seen ch h
    simp only [dedupeByName] at h
    split at h
    · rename_i hx
      have hne : low x.name ≠ low ch.name := fun heq =>
        dedupeByName_not_seen low rest seen ch h (heq ▸ hx)
      rw [List.find?_cons_of_neg _ (by simpa using hne)]
      exact ih seen ch h
    · rcases List.mem_cons.mp h with rfl | h
      · simp
      · have hne : low x.name ≠ low ch.name := fun heq =>
          dedupeByName_not_seen low rest _ ch h (heq ▸ List.mem_cons_self _ _)
        rw [List.find?_cons_of_neg _ (by simpa using hne)]
        exact ih _ ch h

/-- The current channel `getCurrentChannel` reports is never the empty string. -/
theorem getCurrentChannel_ne_empty (pathname : String) :
    getCurrentChannel pathname ≠ some "" := by
  unfold getCurrentChannel
  split
  · split
    · rename_i h
      intro heq
      have := congrArg (Option.map String.data) heq
      simp at this
      exact h.1 this
    · simp
  · simp

theorem jsSlice_last50 {α : Type} (l : List α) :
    jsSlice l (-50) = l.drop (l.length - 50) := by
  have : (max ((l.length : ℤ) + -50) 0).toNat = l.length - 50 := by omega
  simp only [jsSlice, show (-50 : ℤ) < 0 by decide, if_true, this]

theorem saveHistoryItem_run {e : Env} (h' : e.onlyDeliveryFails) (w : World)
    (h : List HistoryItem) (time action : String)
    (hs : w.store "history" = some (.history h) ∨ (w.store "history" = none ∧ h = [])) :
    saveHistoryItem time action e w = (.ok (), { w with
      store := w.store.setAll [("history", .history
        (jsSlice (h ++ [HistoryItem.mk time action w.now]) (-50)))]
      calls := w.calls + 2 }) := by
  unfold saveHistoryItem
  rw [tryCatch_consoleLog_run]
  rcases hs with hs | ⟨hs, rfl⟩ <;>
    simp [bind_run, storageGet_run h', hs, dateNow, storageSet_run h', truthy]

theorem includesTwitch_ne_empty (url : String) (h : includesTwitch url = true) : url ≠ "" := by
  rintro rfl
  exact absurd h (by decide)

/-- The world `handleMessage` leaves for `page_loaded` is the one `handlePageLoaded` leaves. -/
theorem handleMessage_page_loaded (e : Env) (w : World) (actionType : String)
    (tab : Option Tab) :
    (handleMessage { action := "page_loaded", actionType := actionType } tab e w).2 =
      (handlePageLoaded tab e w).2 := by
  unfold handleMessage
  rw [bind_run, tryCatch_run]
  simp only [show ¬ ("page_loaded" = "start_timers") by decide,
    show ¬ ("page_loaded" = "stop_timers") by decide,
    show ¬ ("page_loaded" = "force_action") by decide,
    show ¬ ("page_loaded" = "get_status") by decide, if_false, if_true, bind_run]
  rcases handlePageLoaded tab e w with ⟨_ | _, w'⟩ <;> simp [consoleLog, bind_run]

theorem handlePageLoaded_start {e : Env} (h : e.onlyDeliveryFails) (w : World) (t : Tab)
    (hurl : includesTwitch t.url = true) (ht : truthy (w.store STORAGE_KEYS.TIMERS_ACTIVE) = false) :
    handlePageLoaded (some t) e w = startTimers e { w with calls := w.calls + 1 } := by
  have hne := includesTwitch_ne_empty t.url hurl
  simp [handlePageLoaded, hne, hurl, bind_run, storageGet_run h, ht]

theorem Preserves.mathRandom {P : World → Prop}
    (hP : ∀ w, P w → P { w with draws := w.draws + 1 }) : Preserves P mathRandom :=
  ⟨fun _ w hw => hP w hw⟩

theorem Preserves.tabsCreate {P : World → Prop}
    (hP : ∀ w, P w → P { w with calls := w.calls + 1 })
    (hP' : ∀ w id, P w → P { w with calls := w.calls + 1, opened := w.opened ++ [id] }) :
    Preserves P tabsCreate := by
  refine ⟨fun e w hw => ?_⟩
  unfold TwitchNavigator.tabsCreate
  split
  · exact hP w hw
  · exact hP' w _ hw

theorem Preserves.ite {α : Type} {P : World → Prop} {c : Prop} [Decidable c] {m1 m2 : M α}
    (h1 : Preserves P m1) (h2 : Preserves P m2) : Preserves P (if c then m1 else m2) := by
  split <;> assumption

theorem saveOriginalChannel_notIdle (tab : Tab) :
    Preserves World.notIdle (saveOriginalChannel tab) := by
  unfold saveOriginalChannel storageSet
  cases extractChannelFromUrl tab.url with
  | none => exact Preserves.pure _ _
  | some c =>
    refine Preserves.ite (Preserves.bind (Preserves.platform _ fun w hw => hw) fun _ =>
      Preserves.modifyWorld _ fun w hw => ?_) (Preserves.pure _ _)
    simpa [World.notIdle] using hw

/-- No handler writes `idle`: a state that is not `idle` stays so, whatever is rejected. -/
theorem handleAlarm_notIdle (alarm : Alarm) : Preserves World.notIdle (handleAlarm alarm) := by
  unfold handleAlarm executeChannelSwitch executeTabOpen executeTabClose executeReturnToOriginal
    scheduleNextChannelSwitch scheduleNextTabOpen
    storageGet tabsQuery storageSet alarmsCreate tabsRemove storageRemove
  repeat' first
    | apply Preserves.pure
    | apply Preserves.consoleLog
    | apply saveOriginalChannel_notIdle
    | apply Preserves.bind
    | apply Preserves.tryCatch
    | apply Preserves.platform
    | apply Preserves.modifyWorld
    | apply Preserves.getWorld
    | apply Preserves.dateNow
    | apply Preserves.mathRandom
    | apply Preserves.tabsCreate
    | apply Preserves.tabsSendMessage
    | intro (_ : _)
    | split
  all_goals first
    | assumption
    | (simp only [World.notIdle, ne_eq] at *; simp_all)

theorem forceAction_notIdle (actionType : String) :
    Preserves World.notIdle (forceAction actionType) := by
  refine ⟨fun e w hw => ?_⟩
  unfold forceAction
  split_ifs
  · have := (handleAlarm_notIdle { name := ALARM_NAMES.CHANNEL_SWITCH, scheduledTime := 0 }).run
      e w hw
    simpa [handleAlarm, bind_run, consoleLog] using this
  · have := (handleAlarm_notIdle { name := ALARM_NAMES.TAB_OPEN, scheduledTime := 0 }).run e w hw
    simpa [handleAlarm, bind_run, consoleLog] using this
  · exact hw

theorem fireAlarm_notIdle (alarm : Alarm) : Preserves World.notIdle (fireAlarm alarm) :=
  Preserves.bind (Preserves.modifyWorld _ fun _ hw => hw) fun _ => handleAlarm_notIdle alarm

theorem setupInitialState_run {e : Env} (h : e.onlyDeliveryFails) (w : World) :
    setupInitialState e w = (.ok (), { w with
      store := w.store.setAll [(STORAGE_KEYS.TIMERS_ACTIVE, .bool false),
        (STORAGE_KEYS.CURRENT_STATE, .str "idle"), (STORAGE_KEYS.LAST_ACTION, .null)]
      calls := w.calls + 1 }) := by
  simp [setupInitialState, bind_run, storageSet_run h, consoleLog]

theorem handlePageLoaded_idleOwnsNothing {e : Env} (h : e.onlyDeliveryFails) (w : World)
    (tab : Option Tab) (hw : w.idleOwnsNothing) :
    (handlePageLoaded tab e w).2.idleOwnsNothing := by
  cases tab with
  | none => simpa [handlePageLoaded] using hw
  | some t =>
    by_cases hurl : t.url ≠ "" ∧ includesTwitch t.url = true
    · cases ht : truthy (w.store STORAGE_KEYS.TIMERS_ACTIVE)
      · rw [handlePageLoaded_start h w t hurl.2 ht, startTimers_run h]
        simp [World.idleOwnsNothing]
      · have : handlePageLoaded (some t) e w = (.ok (), { w with calls := w.calls + 1 }) := by
          simp [handlePageLoaded, hurl.1, hurl.2, bind_run, storageGet_run h, ht]
        rw [this]
        exact hw
    · have : handlePageLoaded (some t) e w = (.ok (), w) := by
        simp only [handlePageLoaded, hurl, if_false, pure_run]
      rw [this]
      exact hw

/-- The answer of the tab query is the tab list of the world: `f` only ever runs on it. -/
theorem Preserves.tabsQuery_bind {β : Type} {P : World → Prop} (tabs : List Tab)
    {f : List Tab → M β} (hT : ∀ w, P w → w.tabs = tabs)
    (hP : ∀ w, P w → P { w with calls := w.calls + 1 }) (hf : Preserves P (f tabs)) :
    Preserves P (tabsQuery >>= f) := by
  refine ⟨fun e w hw => ?_⟩
  have h1 := hP w hw
  have h2 := hT _ h1
  cases hq : e.fails w.calls .tabsQuery
  · have : (tabsQuery >>= f) e w = f tabs e { w with calls := w.calls + 1 } := by
      simp only [bind_run, TwitchNavigator.tabsQuery, TwitchNavigator.platform, hq,
        TwitchNavigator.getWorld, pure_run]
      simp [← h2]
    rw [this]
    exact hf.run e _ h1
  · have : (tabsQuery >>= f) e w =
        (.error (.rejected .tabsQuery), { w with calls := w.calls + 1 }) := by
      simp [bind_run, TwitchNavigator.tabsQuery, TwitchNavigator.platform, hq]
    rw [this]
    exact h1

theorem noNewTabEnv_randomOk : noNewTabEnv.randomOk := fun _ => isDraw_half

/-! ## Lemmas for the cold start, the index bounds and the URL round trip -/

/-- With a truthy persisted flag, `restoreTimers` is `startTimers` after the one read. -/
theorem restoreTimers_start {e : Env} (h : e.onlyDeliveryFails) (w : World)
    (ht : truthy (w.store STORAGE_KEYS.TIMERS_ACTIVE) = true) :
    restoreTimers e w = startTimers e { w with calls := w.calls + 1 } := by
  simp [restoreTimers, bind_run, storageGet_run h, ht, consoleLog]

/-- An index within the bounds of the array reads one of its elements. -/
theorem jsIndex_mem_of_lt {α : Type} (l : List α) (i : ℤ) (h0 : 0 ≤ i)
    (h1 : i < (l.length : ℤ)) : ∃ x ∈ l, jsIndex l i = some x := by
  have hlt : i.toNat < l.length := by omega
  refine ⟨l[i.toNat], List.getElem_mem hlt, ?_⟩
  rw [jsIndex_of_nonneg l i h0, List.getElem?_eq_getElem hlt]

/-- The index drawn by `selectPopularChannel` is within the array. -/
theorem selectPopularChannel_mem {α : Type} (r : ℚ) (channels : List α)
    (hn : channels ≠ []) (hlen : channels.length < 2 ^ 32) (hr : isDraw r) :
    ∃ x ∈ channels, selectPopularChannel r channels = some x := by
  have hpos : 1 ≤ channels.length := List.length_pos.mpr hn
  obtain ⟨he, hf0, hf1⟩ := randomBetween_index r 0 (min 5 (channels.length : ℤ) - 1)
    hr (by omega) (min 5 (channels.length : ℤ)) (by omega)
  simp only [selectPopularChannel]
  exact jsIndex_mem_of_lt channels _ (by omega) (by omega)

/-- The index drawn by `selectSmallerChannel` is within the array. -/
theorem selectSmallerChannel_mem {α : Type} (r : ℚ) (channels : List α)
    (hn : channels ≠ []) (hlen : channels.length < 2 ^ 32) (hr : isDraw r) :
    ∃ x ∈ channels, selectSmallerChannel r channels = some x := by
  have hpos : 1 ≤ channels.length := List.length_pos.mpr hn
  obtain ⟨he, hf0, hf1⟩ := randomBetween_index r (max 0 ((channels.length : ℤ) - 5))
    ((channels.length : ℤ) - 1) hr (by omega) (min 5 (channels.length : ℤ)) (by omega)
  simp only [selectSmallerChannel]
  exact jsIndex_mem_of_lt channels _ (by omega) (by omega)

/-- The index drawn by the uniform branch of `selectChannelWithAI` is within the array. -/
theorem selectUniform_mem {α : Type} (r : ℚ) (channels : List α)
    (hn : channels ≠ []) (hlen : channels.length < 2 ^ 32) (hr : isDraw r) :
    ∃ x ∈ channels, jsIndex channels (randomBetween r 0 ((channels.length : ℤ) - 1)) = some x := by
  have hpos : 1 ≤ channels.length := List.length_pos.mpr hn
  obtain ⟨he, hf0, hf1⟩ := randomBetween_index r 0 ((channels.length : ℤ) - 1)
    hr (by omega) (channels.length : ℤ) (by omega)
  exact jsIndex_mem_of_lt channels _ (by omega) (by omega)

/-- A match at the head of `cs` is a non-empty run right after `twitch.tv/`. -/
theorem matchChannelHere_sound (cs run : List Char) (h : matchChannelHere cs = some run) :
    run ≠ [] ∧ ∃ post, cs = "twitch.tv/".toList ++ run ++ post := by
  unfold matchChannelHere at h
  split at h
  · rename_i hpre
    obtain ⟨rest, hrest⟩ := List.isPrefixOf_iff_prefix.mp hpre
    dsimp only at h
    split at h
    · cases h
    · rename_i hemp
      cases h
      have hdrop : List.drop 10 cs = rest := by
        rw [← hrest]
        exact List.drop_left' rfl
      refine ⟨by simpa using hemp, List.dropWhile (fun c => c != '/' && c != '?') rest, ?_⟩
      rw [hdrop, List.append_assoc, List.takeWhile_append_dropWhile, hrest]
  · cases h

/-- A match anywhere in `cs` is a non-empty run right after an occurrence of `twitch.tv/`. -/
theorem matchChannel_sound (cs run : List Char) (h : matchChannel cs = some run) :
    run ≠ [] ∧ ∃ pre post, cs = pre ++ "twitch.tv/".toList ++ run ++ post := by
  induction cs with
  | nil => simp [matchChannel] at h
  | cons c cs ih =>
    unfold matchChannel at h
    split at h
    · rename_i run' hhere
      cases h
      obtain ⟨hne, post, hpost⟩ := matchChannelHere_sound _ _ hhere
      exact ⟨hne, [], post, by simpa using hpost⟩
    · obtain ⟨hne, pre, post, hcs⟩ := ih h
      exact ⟨hne, c :: pre, post, by simp [hcs]⟩

/-- A non-null answer of `extractChannelFromUrl` is a non-empty run that stands in the
URL right after an occurrence of `twitch.tv/`. -/
theorem extractChannelFromUrl_sound (url c : String) (h : extractChannelFromUrl url = some c) :
    c ≠ "" ∧ ∃ pre post : List Char,
      url.toList = pre ++ "twitch.tv/".toList ++ c.toList ++ post := by
  unfold extractChannelFromUrl at h
  rcases hm : matchChannel url.toList with _ | run
  · rw [hm] at h; cases h
  · rw [hm] at h
    simp only [Option.map_some', Option.some.injEq] at h
    subst h
    obtain ⟨hne, pre, post, hcs⟩ := matchChannel_sound _ _ hm
    refine ⟨fun hc => hne ?_, pre, post, hcs⟩
    simpa using congrArg String.data hc

/-- A URL that ends in its only occurrence of `twitch.tv/` has no channel. -/
theorem extractChannelFromUrl_nothing_after (site : String)
    (h : ¬ "twitch.tv/".toList <:+: (site ++ "twitch.tv").toList) :
    extractChannelFromUrl (site ++ "twitch.tv/") = none := by
  rcases hx : extractChannelFromUrl (site ++ "twitch.tv/") with _ | c
  · rfl
  · exfalso
    obtain ⟨hne, pre, post, hcs⟩ := extractChannelFromUrl_sound _ _ hx
    apply h
    have hc : c.toList ++ post ≠ [] := by
      intro hnil
      exact hne (String.ext (List.append_eq_nil.mp hnil).1)
    have hd := congrArg List.dropLast hcs
    have hl : (site ++ "twitch.tv/").toList = (site ++ "twitch.tv").toList ++ ['/'] := by
      simp [String.toList]
    rw [hl, List.dropLast_concat, List.append_assoc, List.dropLast_append_of_ne_nil _ hc] at hd
    exact ⟨pre, (c.toList ++ post).dropLast, hd.symm⟩

/-! ## The claims -/

/-- C1, as stated, fails: for `min = max = 2 ^ 53 - 1` and the unit hours, with the draw
`1/2`, `getRandomInterval` answers 32425917317067567005696, because each of the three
products `value * 60 * 60 * 1000` is rounded to a Number. That answer is `v * 3600000`
for no integer `v` with `min ≤ v ≤ max` and lies below `min * 3600000`. -/
theorem getRandomInterval_rounds_beyond_exact_range :
    (isDraw (1 / 2) ∧ (9007199254740991 : ℤ) = 2 ^ 53 - 1 ∧
      (9007199254740991 : ℤ) ≤ 9007199254740991) ∧
    getRandomInterval (1 / 2) 9007199254740991 9007199254740991 "hours" =
      32425917317067567005696 ∧
    (¬ ∃ v : ℤ, 9007199254740991 ≤ v ∧ v ≤ 9007199254740991 ∧
      getRandomInterval (1 / 2) 9007199254740991 9007199254740991 "hours" =
        v * unitMs "hours") ∧
    getRandomInterval (1 / 2) 9007199254740991 9007199254740991 "hours" <
      9007199254740991 * unitMs "hours" := by
  have e1 : fl (1 : ℚ) = 1 := by simpa using fl_intCast 1 (by norm_num)
  have hu : unitMs "hours" = 3600000 := by decide
  have e2 : fl ((1 : ℚ) / 2) = 1 / 2 := isDraw_half.1
  have e3 : ⌊(1 / 2 : ℚ)⌋ = 0 := by norm_num [Int.floor_eq_iff]
  have e4 : fl (9007199254740991 : ℚ) = 9007199254740991 := by
    simpa using fl_intCast 9007199254740991 (by norm_num)
  have e5 : fl ((9007199254740991 : ℚ) * 60) = 540431955284459456 := by
    rw [fl_eq _ 58 8444249301319679 (by norm_num [abs_of_pos]) (by norm_num [abs_of_pos])
      (by norm_num) (roundHalfEven_eq_of_abs_lt _ _ (by norm_num [abs_lt]))]
    norm_num
  have e6 : fl ((540431955284459456 : ℚ) * 60) = 32425917317067567104 := by
    rw [fl_eq _ 64 7916483719987199 (by norm_num [abs_of_pos]) (by norm_num [abs_of_pos])
      (by norm_num) (roundHalfEven_eq_of_abs_lt _ _ (by norm_num [abs_lt]))]
    norm_num
  have e7 : fl ((32425917317067567104 : ℚ) * 1000) = 32425917317067567005696 := by
    rw [fl_eq _ 74 7730941132799999 (by norm_num [abs_of_pos]) (by norm_num [abs_of_pos])
      (by norm_num) (roundHalfEven_eq_of_abs_lt _ _ (by norm_num [abs_lt]))]
    norm_num
  have hval : getRandomInterval (1 / 2) 9007199254740991 9007199254740991 "hours" =
      32425917317067567005696 := by
    unfold getRandomInterval
    simp only [Int.cast_ofNat, sub_self, fl_zero, e1, mul_one, e2, e3, Int.cast_zero, zero_add,
      e4, e5, e6, e7, show ¬ ("hours" = "minutes") by decide, if_false, if_true]
    norm_num [Int.floor_eq_iff]
  refine ⟨⟨isDraw_half, by norm_num, le_refl _⟩, hval, ?_, ?_⟩
  · rintro ⟨v, h1, h2, h3⟩
    have hv : v = 9007199254740991 := le_antisymm h2 h1
    rw [hval, hv, hu] at h3
    norm_num at h3
  · rw [hval, hu]
    norm_num

/-- C1, amended. For integers `min ≤ max` whose products with `unitMs` are at most
`2 ^ 53` in absolute value, a draw `r` of `Math.random()` (a Number in `[0, 1)`) and a
unit among minutes and hours, `getRandomInterval` answers `v * unitMs` for an integer
`v` with `min ≤ v ≤ max`, where `unitMs` is 60000 for minutes and 3600000 for hours; so
the answer lies between `min * unitMs` and `max * unitMs`. The integer `v` is the draw
`TwitchUtils.randomBetween(min, max)` makes. -/
theorem getRandomInterval_in_range (r : ℚ) (min max : ℤ) (unit : String)
    (hr : isDraw r) (hmm : min ≤ max) (hu : unit = "minutes" ∨ unit = "hours")
    (hlo : |min| * unitMs unit ≤ 2 ^ 53) (hhi : |max| * unitMs unit ≤ 2 ^ 53) :
    (∃ v : ℤ, min ≤ v ∧ v ≤ max ∧ v = randomBetween r min max ∧
      getRandomInterval r min max unit = v * unitMs unit) ∧
      unitMs unit = (if unit = "minutes" then 60000 else 3600000) ∧
      min * unitMs unit ≤ getRandomInterval r min max unit ∧
      getRandomInterval r min max unit ≤ max * unitMs unit := by
  obtain ⟨v, hv1, hv2, hv3, hv⟩ := getRandomInterval_spec r min max unit hr hmm hu hlo hhi
  have hpos : 0 < unitMs unit := by
    rcases hu with rfl | rfl <;> simp [unitMs]
  refine ⟨⟨v, hv1, hv2, hv3, hv⟩, ?_, ?_, ?_⟩
  · rcases hu with rfl | rfl <;> simp [unitMs]
  · rw [hv]; exact mul_le_mul_of_nonneg_right hv1 hpos.le
  · rw [hv]; exact mul_le_mul_of_nonneg_right hv2 hpos.le

/-- Witness of C1, amended: a draw of `1/2` for the channel-switch period of 3-6 hours. -/
theorem getRandomInterval_in_range_witness :
    (isDraw (1 / 2) ∧ (3 : ℤ) ≤ 6 ∧ ("hours" = "minutes" ∨ "hours" = "hours") ∧
      |(3 : ℤ)| * unitMs "hours" ≤ 2 ^ 53 ∧ |(6 : ℤ)| * unitMs "hours" ≤ 2 ^ 53) ∧
    ((∃ v : ℤ, 3 ≤ v ∧ v ≤ 6 ∧ v = randomBetween (1 / 2) 3 6 ∧
      getRandomInterval (1 / 2) 3 6 "hours" = v * unitMs "hours") ∧
      unitMs "hours" = (if "hours" = "minutes" then 60000 else 3600000) ∧
      3 * unitMs "hours" ≤ getRandomInterval (1 / 2) 3 6 "hours" ∧
      getRandomInterval (1 / 2) 3 6 "hours" ≤ 6 * unitMs "hours") :=
  ⟨⟨isDraw_half, by decide, by decide, by decide, by decide⟩,
    getRandomInterval_in_range (1 / 2) 3 6 "hours" isDraw_half (by decide) (by decide)
      (by decide) (by decide)⟩

/-- C2. For every prior store and alarm set, `startTimers` followed immediately by
`stopTimers` resolves and leaves no pending alarm at all, `timers_active = false`
and `current_state = 'idle'` (no platform call being rejected). -/
theorem start_then_stop (e : Env) (w : World) (h : e.reliable) :
    ∃ w', (do startTimers; stopTimers : M Unit) e w = (.ok (), w') ∧
      w'.alarms = [] ∧
      w'.store STORAGE_KEYS.TIMERS_ACTIVE = some (.bool false) ∧
      w'.store STORAGE_KEYS.CURRENT_STATE = some (.str "idle") := by
  have h' := reliable_onlyDeliveryFails h
  simp [bind_run, startTimers_run h', stopTimers_run h']

/-- Witness of C2: the sample world, which holds an old `tab_close` alarm. -/
theorem start_then_stop_witness :
    calmEnv.reliable ∧
    ∃ w', (do startTimers; stopTimers : M Unit) calmEnv sampleWorld = (.ok (), w') ∧
      w'.alarms = [] ∧
      w'.store STORAGE_KEYS.TIMERS_ACTIVE = some (.bool false) ∧
      w'.store STORAGE_KEYS.CURRENT_STATE = some (.str "idle") :=
  ⟨fun _ _ => rfl, start_then_stop calmEnv sampleWorld (fun _ _ => rfl)⟩

/-- C3. For every prior store and alarm set, calling `startTimers` twice in a row
leaves exactly one pending alarm named `channel_switch`, exactly one named `tab_open`,
and no alarm under any other name. -/
theorem start_twice (e : Env) (w : World) (h : e.reliable) :
    ∃ w', (do startTimers; startTimers : M Unit) e w = (.ok (), w') ∧
      (w'.pending ALARM_NAMES.CHANNEL_SWITCH).length = 1 ∧
      (w'.pending ALARM_NAMES.TAB_OPEN).length = 1 ∧
      ∀ a ∈ w'.alarms, a.name = ALARM_NAMES.CHANNEL_SWITCH ∨ a.name = ALARM_NAMES.TAB_OPEN := by
  have h' := reliable_onlyDeliveryFails h
  simp [bind_run, startTimers_run h', World.pending]

/-- Witness of C3: the sample world. -/
theorem start_twice_witness :
    calmEnv.reliable ∧
    ∃ w', (do startTimers; startTimers : M Unit) calmEnv sampleWorld = (.ok (), w') ∧
      (w'.pending ALARM_NAMES.CHANNEL_SWITCH).length = 1 ∧
      (w'.pending ALARM_NAMES.TAB_OPEN).length = 1 ∧
      ∀ a ∈ w'.alarms, a.name = ALARM_NAMES.CHANNEL_SWITCH ∨ a.name = ALARM_NAMES.TAB_OPEN :=
  ⟨fun _ _ => rfl, start_twice calmEnv sampleWorld (fun _ _ => rfl)⟩

/-- C4. Cold start (`restoreTimers`). If the persisted `timers_active` flag is truthy
(in particular `true`), then afterwards exactly one `channel_switch` alarm, due 3 to 6
hours from now, and exactly one `tab_open` alarm, due 1 to 3 hours from now, are
pending. If the flag is not truthy (in particular `false` or absent), `restoreTimers`
creates no alarm: the alarm set and the store are unchanged and the read of the flag
is the only platform call made, even when that read is rejected. -/
theorem restoreTimers_cold_start (e : Env) (w : World) (hr : e.randomOk) :
    (e.reliable → truthy (w.store STORAGE_KEYS.TIMERS_ACTIVE) = true →
      (restoreTimers e w).1 = .ok () ∧
      ∃ vc vt : ℤ, 3 ≤ vc ∧ vc ≤ 6 ∧ 1 ≤ vt ∧ vt ≤ 3 ∧
        (restoreTimers e w).2.pending ALARM_NAMES.CHANNEL_SWITCH =
          [{ name := ALARM_NAMES.CHANNEL_SWITCH, scheduledTime := (w.now : ℚ) + vc * 3600000 }] ∧
        (restoreTimers e w).2.pending ALARM_NAMES.TAB_OPEN =
          [{ name := ALARM_NAMES.TAB_OPEN, scheduledTime := (w.now : ℚ) + vt * 3600000 }]) ∧
    (truthy (w.store STORAGE_KEYS.TIMERS_ACTIVE) = false →
      (restoreTimers e w).2.alarms = w.alarms ∧ (restoreTimers e w).2.store = w.store ∧
      (restoreTimers e w).2.calls = w.calls + 1) := by
  constructor
  · intro h ht
    have h' := reliable_onlyDeliveryFails h
    obtain ⟨vc, hc1, hc2, hc⟩ := hours_draw hr w.draws 3 6 (by decide)
    obtain ⟨vt, ht1, ht2, ht'⟩ := hours_draw hr (w.draws + 1) 1 3 (by decide)
    have hrun : restoreTimers e w = startTimers e { w with calls := w.calls + 1 } := by
      simp [restoreTimers, bind_run, storageGet_run h', ht, consoleLog]
    rw [hrun, startTimers_run h']
    refine ⟨rfl, vc, vt, hc1, hc2, ht1, ht2, ?_, ?_⟩
    · simp [World.pending, hc]
    · simp [World.pending, ht']
  · intro ht
    cases hf : e.fails w.calls (.storageGet [STORAGE_KEYS.TIMERS_ACTIVE]) <;>
      simp [restoreTimers, bind_run, storageGet, platform, getWorld] at hf ht ⊢ <;>
      simp [hf, ht]

/-- Witness of C4: a restart with the flag `true`, and one with the flag absent. -/
theorem restoreTimers_cold_start_witness :
    (calmEnv.randomOk ∧ calmEnv.reliable ∧
      truthy (restartedWorld.store STORAGE_KEYS.TIMERS_ACTIVE) = true ∧
      truthy (sampleWorld.store STORAGE_KEYS.TIMERS_ACTIVE) = false) ∧
    ((restoreTimers calmEnv restartedWorld).1 = .ok () ∧
      ∃ vc vt : ℤ, 3 ≤ vc ∧ vc ≤ 6 ∧ 1 ≤ vt ∧ vt ≤ 3 ∧
        (restoreTimers calmEnv restartedWorld).2.pending ALARM_NAMES.CHANNEL_SWITCH =
          [{ name := ALARM_NAMES.CHANNEL_SWITCH,
             scheduledTime := (restartedWorld.now : ℚ) + vc * 3600000 }] ∧
        (restoreTimers calmEnv restartedWorld).2.pending ALARM_NAMES.TAB_OPEN =
          [{ name := ALARM_NAMES.TAB_OPEN,
             scheduledTime := (restartedWorld.now : ℚ) + vt * 3600000 }]) ∧
    ((restoreTimers calmEnv sampleWorld).2.alarms = sampleWorld.alarms ∧
      (restoreTimers calmEnv sampleWorld).2.store = sampleWorld.store ∧
      (restoreTimers calmEnv sampleWorld).2.calls = sampleWorld.calls + 1) :=
  ⟨⟨calmEnv_randomOk, fun _ _ => rfl, by decide, by decide⟩,
    (restoreTimers_cold_start calmEnv restartedWorld calmEnv_randomOk).1 (fun _ _ => rfl)
      (by decide),
    (restoreTimers_cold_start calmEnv sampleWorld calmEnv_randomOk).2 (by decide)⟩

/-- C5. When the tab query answers with zero target-site tabs and the platform accepts
the alarm creation, `executeChannelSwitch` resolves (does not throw) and afterwards
exactly one `channel_switch` alarm is pending, due a freshly drawn 3 to 6 hours from
now. -/
theorem channel_switch_without_tabs (e : Env) (w : World) (ha : e.acceptsAlarms)
    (hr : e.randomOk) (hq : e.fails w.calls .tabsQuery = false) (ht : w.tabs = []) :
    (executeChannelSwitch e w).1 = .ok () ∧
    ∃ v : ℤ, 3 ≤ v ∧ v ≤ 6 ∧
      getRandomInterval (e.random w.draws) 3 6 "hours" = v * 3600000 ∧
      (executeChannelSwitch e w).2.pending ALARM_NAMES.CHANNEL_SWITCH =
        [{ name := ALARM_NAMES.CHANNEL_SWITCH, scheduledTime := (w.now : ℚ) + v * 3600000 }] := by
  obtain ⟨v, hv1, hv2, hv⟩ := hours_draw hr w.draws 3 6 (by decide)
  have hrun : executeChannelSwitch e w =
      scheduleNextChannelSwitch e { w with calls := w.calls + 1 } := by
    unfold executeChannelSwitch
    rw [tryCatch_run]
    simp [bind_run, tabsQuery, platform, hq, getWorld, ht, consoleLog,
      scheduleNextChannelSwitch_run ha]
  rw [hrun, scheduleNextChannelSwitch_run ha]
  refine ⟨rfl, v, hv1, hv2, hv, ?_⟩
  simp [World.pending, filter_replace_same, hv]

/-- Witness of C5: the sample world with its Twitch tab closed. -/
theorem channel_switch_without_tabs_witness :
    (calmEnv.acceptsAlarms ∧ calmEnv.randomOk ∧
      calmEnv.fails tablessWorld.calls .tabsQuery = false ∧ tablessWorld.tabs = []) ∧
    ((executeChannelSwitch calmEnv tablessWorld).1 = .ok () ∧
    ∃ v : ℤ, 3 ≤ v ∧ v ≤ 6 ∧
      getRandomInterval (calmEnv.random tablessWorld.draws) 3 6 "hours" = v * 3600000 ∧
      (executeChannelSwitch calmEnv tablessWorld).2.pending ALARM_NAMES.CHANNEL_SWITCH =
        [{ name := ALARM_NAMES.CHANNEL_SWITCH,
           scheduledTime := (tablessWorld.now : ℚ) + v * 3600000 }]) :=
  ⟨⟨fun _ _ => rfl, calmEnv_randomOk, rfl, rfl⟩,
    channel_switch_without_tabs calmEnv tablessWorld (fun _ _ => rfl) calmEnv_randomOk rfl rfl⟩

/-- C6. For every store (`original_channel` present or absent), every tab list (empty
or not) and every outcome of the delivery of `return_to_channel` (and indeed of every
other storage, tab and message call), `executeReturnToOriginal` resolves and afterwards
exactly one, newly scheduled, `channel_switch` alarm is pending, due a freshly drawn
3 to 6 hours from now; the platform is assumed to accept the alarm creation. -/
theorem return_always_reschedules (e : Env) (w : World) (ha : e.acceptsAlarms)
    (hr : e.randomOk) :
    (executeReturnToOriginal e w).1 = .ok () ∧
    ∃ v : ℤ, 3 ≤ v ∧ v ≤ 6 ∧
      getRandomInterval (e.random w.draws) 3 6 "hours" = v * 3600000 ∧
      (executeReturnToOriginal e w).2.pending ALARM_NAMES.CHANNEL_SWITCH =
        [{ name := ALARM_NAMES.CHANNEL_SWITCH, scheduledTime := (w.now : ℚ) + v * 3600000 }] := by
  obtain ⟨v, hv1, hv2, hv⟩ := hours_draw hr w.draws 3 6 (by decide)
  obtain ⟨h1, h2, h3⟩ := (executeReturnToOriginal_try_frame w).run e w ⟨rfl, rfl, rfl⟩
  unfold executeReturnToOriginal
  rw [tryLog_then_run, scheduleNextChannelSwitch_run ha]
  refine ⟨rfl, v, hv1, hv2, hv, ?_⟩
  simp only [World.pending, filter_replace_same, h1, h2, hv]
  simp

/-- Witness of C6: messages go undelivered and a Twitch tab is open. -/
theorem return_always_reschedules_witness :
    (deafEnv.acceptsAlarms ∧ deafEnv.randomOk) ∧
    ((executeReturnToOriginal deafEnv sampleWorld).1 = .ok () ∧
    ∃ v : ℤ, 3 ≤ v ∧ v ≤ 6 ∧
      getRandomInterval (deafEnv.random sampleWorld.draws) 3 6 "hours" = v * 3600000 ∧
      (executeReturnToOriginal deafEnv sampleWorld).2.pending ALARM_NAMES.CHANNEL_SWITCH =
        [{ name := ALARM_NAMES.CHANNEL_SWITCH,
           scheduledTime := (sampleWorld.now : ℚ) + v * 3600000 }]) :=
  ⟨⟨fun _ _ => rfl, deafEnv_randomOk⟩,
    return_always_reschedules deafEnv sampleWorld (fun _ _ => rfl) deafEnv_randomOk⟩

/-- C7. After `startTimers`, when `executeChannelSwitch` runs with exactly one open
target tab whose URL is `https://www.twitch.tv/<c>` for a channel name `c` (such as
`alice`), then whether or not the switch message is delivered: the handler resolves,
`original_channel = c`, a `switch_channel` message was addressed to that tab's id,
exactly one `return_to_original` alarm is pending, due 5 to 20 minutes from now, and
`current_state = 'channel_switched'`. -/
theorem channel_switch_from_channel_page (e : Env) (w : World) (t : Tab) (c : String)
    (hf : e.onlyDeliveryFails) (hr : e.randomOk) (hc : isChannelSegment c)
    (ht : w.tabs = [t]) (hurl : t.url = "https://www.twitch.tv/" ++ c) :
    (executeChannelSwitch e (startTimers e w).2).1 = .ok () ∧
    (executeChannelSwitch e (startTimers e w).2).2.store STORAGE_KEYS.ORIGINAL_CHANNEL =
      some (.str c) ∧
    (∃ delivered : Bool, (executeChannelSwitch e (startTimers e w).2).2.sent =
      w.sent ++ [{ tabId := t.id, msg := .switch_channel, delivered := delivered }]) ∧
    (∃ v : ℤ, 5 ≤ v ∧ v ≤ 20 ∧
      (executeChannelSwitch e (startTimers e w).2).2.pending ALARM_NAMES.RETURN_TO_ORIGINAL =
        [{ name := ALARM_NAMES.RETURN_TO_ORIGINAL, scheduledTime := (w.now : ℚ) + v * 60000 }]) ∧
    (executeChannelSwitch e (startTimers e w).2).2.store STORAGE_KEYS.CURRENT_STATE =
      some (.str "channel_switched") := by
  obtain ⟨v, hv1, hv2, hv⟩ := minutes_draw hr (w.draws + 2) 5 20 (by decide)
  have hx : extractChannelFromUrl t.url = some c := by
    rw [hurl]; exact extractChannelFromUrl_channel_page c hc
  have key := startTimers_run hf w
  have h1 : (startTimers e w).2.tabs = w.tabs := by rw [key]
  have h2 : (startTimers e w).2.now = w.now := by rw [key]
  have h3 : (startTimers e w).2.sent = w.sent := by rw [key]
  have h4 : (startTimers e w).2.draws = w.draws + 2 := by rw [key]
  rw [executeChannelSwitch_run hf _ t c (h1.trans ht) hx hc.1]
  refine ⟨rfl, by simp, ⟨_, by rw [h3]⟩, ⟨v, hv1, hv2, ?_⟩, by simp⟩
  simp [World.pending, filter_replace_same, h2, h4, hv]

/-- Witness of C7: the tab on `alice`, with the switch message undelivered. -/
theorem channel_switch_from_channel_page_witness :
    (deafEnv.onlyDeliveryFails ∧ deafEnv.randomOk ∧ isChannelSegment "alice" ∧
      sampleWorld.tabs = [{ id := 7, url := "https://www.twitch.tv/alice", active := false }] ∧
      "https://www.twitch.tv/alice" = "https://www.twitch.tv/" ++ "alice") ∧
    ((executeChannelSwitch deafEnv (startTimers deafEnv sampleWorld).2).1 = .ok () ∧
    (executeChannelSwitch deafEnv (startTimers deafEnv sampleWorld).2).2.store
      STORAGE_KEYS.ORIGINAL_CHANNEL = some (.str "alice") ∧
    (∃ delivered : Bool, (executeChannelSwitch deafEnv (startTimers deafEnv sampleWorld).2).2.sent =
      sampleWorld.sent ++ [{ tabId := 7, msg := .switch_channel, delivered := delivered }]) ∧
    (∃ v : ℤ, 5 ≤ v ∧ v ≤ 20 ∧
      (executeChannelSwitch deafEnv (startTimers deafEnv sampleWorld).2).2.pending
        ALARM_NAMES.RETURN_TO_ORIGINAL =
        [{ name := ALARM_NAMES.RETURN_TO_ORIGINAL,
           scheduledTime := (sampleWorld.now : ℚ) + v * 60000 }]) ∧
    (executeChannelSwitch deafEnv (startTimers deafEnv sampleWorld).2).2.store
      STORAGE_KEYS.CURRENT_STATE = some (.str "channel_switched")) :=
  ⟨⟨deafEnv_onlyDeliveryFails, deafEnv_randomOk, ⟨by decide, by decide⟩, rfl, by decide⟩,
    channel_switch_from_channel_page deafEnv sampleWorld
      { id := 7, url := "https://www.twitch.tv/alice", active := false } "alice"
      deafEnv_onlyDeliveryFails deafEnv_randomOk ⟨by decide, by decide⟩ rfl (by decide)⟩

/-- C8. For every prior store and alarm set, `forceAction('tab_open')` with a
successful tab creation returning id `t` resolves and leaves `temp_tab_id = t`
persisted and exactly one `tab_close` alarm pending, due 3 to 7 minutes from now,
while `current_state`, `original_channel`, `timers_active` and the pending
`channel_switch` and `return_to_original` alarms are unchanged. -/
theorem force_tab_open (e : Env) (w : World) (t : Int) (h : e.reliable) (hr : e.randomOk)
    (ht : e.newTabId w.calls = t) :
    (forceAction "tab_open" e w).1 = .ok () ∧
    (forceAction "tab_open" e w).2.opened = w.opened ++ [t] ∧
    (forceAction "tab_open" e w).2.store "temp_tab_id" = some (.num t) ∧
    (∃ v : ℤ, 3 ≤ v ∧ v ≤ 7 ∧
      (forceAction "tab_open" e w).2.pending ALARM_NAMES.TAB_CLOSE =
        [{ name := ALARM_NAMES.TAB_CLOSE, scheduledTime := (w.now : ℚ) + v * 60000 }]) ∧
    (forceAction "tab_open" e w).2.store STORAGE_KEYS.CURRENT_STATE =
      w.store STORAGE_KEYS.CURRENT_STATE ∧
    (forceAction "tab_open" e w).2.store STORAGE_KEYS.ORIGINAL_CHANNEL =
      w.store STORAGE_KEYS.ORIGINAL_CHANNEL ∧
    (forceAction "tab_open" e w).2.store STORAGE_KEYS.TIMERS_ACTIVE =
      w.store STORAGE_KEYS.TIMERS_ACTIVE ∧
    (forceAction "tab_open" e w).2.pending ALARM_NAMES.CHANNEL_SWITCH =
      w.pending ALARM_NAMES.CHANNEL_SWITCH ∧
    (forceAction "tab_open" e w).2.pending ALARM_NAMES.RETURN_TO_ORIGINAL =
      w.pending ALARM_NAMES.RETURN_TO_ORIGINAL := by
  have h' := reliable_onlyDeliveryFails h
  obtain ⟨v, hv1, hv2, hv⟩ := minutes_draw hr w.draws 3 7 (by decide)
  have hrun : forceAction "tab_open" e w = executeTabOpen e w := by
    simp [forceAction]
  rw [hrun, executeTabOpen_run h', ht]
  refine ⟨rfl, rfl, by simp, ⟨v, hv1, hv2, ?_⟩, by simp, by simp, by simp, ?_, ?_⟩
  · simp only [World.pending]
    rw [filter_replace_other _ _ _ _ (by decide), filter_replace_same, hv]
    simp
  · simp only [World.pending]
    rw [filter_replace_other _ _ _ _ (by decide), filter_replace_other _ _ _ _ (by decide)]
  · simp only [World.pending]
    rw [filter_replace_other _ _ _ _ (by decide), filter_replace_other _ _ _ _ (by decide)]

/-- Witness of C8: the sample world, where the new tab receives id `0`. -/
theorem force_tab_open_witness :
    (calmEnv.reliable ∧ calmEnv.randomOk ∧ calmEnv.newTabId sampleWorld.calls = 0) ∧
    ((forceAction "tab_open" calmEnv sampleWorld).1 = .ok () ∧
    (forceAction "tab_open" calmEnv sampleWorld).2.opened = sampleWorld.opened ++ [0] ∧
    (forceAction "tab_open" calmEnv sampleWorld).2.store "temp_tab_id" = some (.num 0) ∧
    (∃ v : ℤ, 3 ≤ v ∧ v ≤ 7 ∧
      (forceAction "tab_open" calmEnv sampleWorld).2.pending ALARM_NAMES.TAB_CLOSE =
        [{ name := ALARM_NAMES.TAB_CLOSE,
           scheduledTime := (sampleWorld.now : ℚ) + v * 60000 }]) ∧
    (forceAction "tab_open" calmEnv sampleWorld).2.store STORAGE_KEYS.CURRENT_STATE =
      sampleWorld.store STORAGE_KEYS.CURRENT_STATE ∧
    (forceAction "tab_open" calmEnv sampleWorld).2.store STORAGE_KEYS.ORIGINAL_CHANNEL =
      sampleWorld.store STORAGE_KEYS.ORIGINAL_CHANNEL ∧
    (forceAction "tab_open" calmEnv sampleWorld).2.store STORAGE_KEYS.TIMERS_ACTIVE =
      sampleWorld.store STORAGE_KEYS.TIMERS_ACTIVE ∧
    (forceAction "tab_open" calmEnv sampleWorld).2.pending ALARM_NAMES.CHANNEL_SWITCH =
      sampleWorld.pending ALARM_NAMES.CHANNEL_SWITCH ∧
    (forceAction "tab_open" calmEnv sampleWorld).2.pending ALARM_NAMES.RETURN_TO_ORIGINAL =
      sampleWorld.pending ALARM_NAMES.RETURN_TO_ORIGINAL) :=
  ⟨⟨fun _ _ => rfl, calmEnv_randomOk, rfl⟩,
    force_tab_open calmEnv sampleWorld 0 (fun _ _ => rfl) calmEnv_randomOk rfl⟩

/-- C9. For every prior store and alarm set, `getStatus` called after `stopTimers`
resolves with `active = false`, `state = 'idle'` and an empty `alarms` list. -/
theorem status_after_stop (e : Env) (w : World) (h : e.reliable) :
    ∃ st w', (do stopTimers; getStatus : M Status) e w = (.ok st, w') ∧
      st.active = .bool false ∧ st.state = .str "idle" ∧ st.alarms = [] := by
  have h' := reliable_onlyDeliveryFails h
  simp [bind_run, stopTimers_run h', getStatus, alarmsGetAll_run h', storageGet_run h', dateNow,
    jsOr, truthy]

/-- Witness of C9: the sample world, which holds an old `tab_close` alarm. -/
theorem status_after_stop_witness :
    calmEnv.reliable ∧
    ∃ st w', (do stopTimers; getStatus : M Status) calmEnv sampleWorld = (.ok st, w') ∧
      st.active = .bool false ∧ st.state = .str "idle" ∧ st.alarms = [] :=
  ⟨fun _ _ => rfl, status_after_stop calmEnv sampleWorld (fun _ _ => rfl)⟩

/-- C10 (the code departs from the claim). The claim: with every platform call
possibly failing, `handleAlarm` never propagates a failure. In the code the re-arming
calls `scheduleNextTabOpen` and `scheduleNextChannelSwitch` stand outside the `try`
blocks (or inside a `catch`), so a rejected `chrome.alarms.create` escapes: with every
alarm creation rejected, `handleAlarm` rejects for `tab_open`, `return_to_original` and
`channel_switch`; only `tab_close` resolves. -/
theorem handleAlarm_propagates_alarm_rejection :
    (handleAlarm { name := "tab_open", scheduledTime := 1000 } alarmsRejectedEnv sampleWorld).1 =
      .error (.rejected (.alarmsCreate "tab_open")) ∧
    (handleAlarm { name := "return_to_original", scheduledTime := 1000 } alarmsRejectedEnv
      sampleWorld).1 = .error (.rejected (.alarmsCreate "channel_switch")) ∧
    (handleAlarm { name := "channel_switch", scheduledTime := 1000 } alarmsRejectedEnv
      sampleWorld).1 = .error (.rejected (.alarmsCreate "channel_switch")) ∧
    (handleAlarm { name := "tab_close", scheduledTime := 1000 } alarmsRejectedEnv
      sampleWorld).1 = .ok () := by
  refine ⟨?_, ?_, ?_, ?_⟩
  · simp [handleAlarm, consoleLog, bind_run, tryCatch_run, executeTabOpen, tabsCreate,
      mathRandom_run, alarmsCreate, platform, alarmsRejectedEnv, sampleWorld, scheduleNextTabOpen]
  · simp [handleAlarm, consoleLog, bind_run, tryCatch_run, executeReturnToOriginal, storageGet,
      tabsQuery, getWorld, mathRandom_run, alarmsCreate, platform, alarmsRejectedEnv,
      sampleWorld, scheduleNextChannelSwitch]
  · simp [handleAlarm, consoleLog, bind_run, tryCatch_run, executeChannelSwitch, storageGet,
      tabsQuery, getWorld, mathRandom_run, alarmsCreate, platform, alarmsRejectedEnv,
      sampleWorld, scheduleNextChannelSwitch, saveOriginalChannel, tabsSendMessage, storageSet,
      modifyWorld, extractChannelFromUrl, matchChannel, matchChannelHere, truthy]
  · simp [handleAlarm, consoleLog, bind_run, tryCatch_run, executeTabClose, storageGet,
      getWorld, platform, alarmsRejectedEnv, sampleWorld]

/-- C11. Whether the tab creation inside `executeTabOpen` succeeds or fails (and
whether or not the write of the handle is rejected), `executeTabOpen` resolves and
afterwards exactly one `tab_open` alarm is pending, due a freshly drawn 1 to 3 hours
from now; the platform is assumed to accept the alarm creations. The draw is the second
of the handler when the tab was created and the first when it was not. -/
theorem tab_open_always_reschedules (e : Env) (w : World) (ha : e.acceptsAlarms)
    (hr : e.randomOk) :
    (executeTabOpen e w).1 = .ok () ∧
    ∃ (v : ℤ) (n : ℕ), 1 ≤ v ∧ v ≤ 3 ∧
      n = (if e.fails w.calls .tabsCreate = true then w.draws else w.draws + 1) ∧
      getRandomInterval (e.random n) 1 3 "hours" = v * 3600000 ∧
      (executeTabOpen e w).2.pending ALARM_NAMES.TAB_OPEN =
        [{ name := ALARM_NAMES.TAB_OPEN, scheduledTime := (w.now : ℚ) + v * 3600000 }] := by
  unfold executeTabOpen
  rw [tryLog_then_run, scheduleNextTabOpen_run ha]
  refine ⟨rfl, ?_⟩
  cases hc : e.fails w.calls .tabsCreate
  · obtain ⟨v, hv1, hv2, hv⟩ := hours_draw hr (w.draws + 1) 1 3 (by decide)
    refine ⟨v, w.draws + 1, hv1, hv2, by simp, hv, ?_⟩
    cases hs : e.fails (w.calls + 1 + 1) (.storageSet ["temp_tab_id", "last_action"]) <;>
      simp [World.pending, filter_replace_same, bind_run, tabsCreate, hc, mathRandom_run,
        alarmsCreate_run ha, dateNow, storageSet, platform, hs, modifyWorld, consoleLog, hv]
  · obtain ⟨v, hv1, hv2, hv⟩ := hours_draw hr w.draws 1 3 (by decide)
    refine ⟨v, w.draws, hv1, hv2, by simp, hv, ?_⟩
    simp [World.pending, filter_replace_same, bind_run, tabsCreate, hc, hv]

/-- Witness of C11: every tab creation is rejected. -/
theorem tab_open_always_reschedules_witness :
    (noNewTabEnv.acceptsAlarms ∧ noNewTabEnv.randomOk) ∧
    ((executeTabOpen noNewTabEnv sampleWorld).1 = .ok () ∧
    ∃ (v : ℤ) (n : ℕ), 1 ≤ v ∧ v ≤ 3 ∧
      n = (if noNewTabEnv.fails sampleWorld.calls .tabsCreate = true then sampleWorld.draws
        else sampleWorld.draws + 1) ∧
      getRandomInterval (noNewTabEnv.random n) 1 3 "hours" = v * 3600000 ∧
      (executeTabOpen noNewTabEnv sampleWorld).2.pending ALARM_NAMES.TAB_OPEN =
        [{ name := ALARM_NAMES.TAB_OPEN,
           scheduledTime := (sampleWorld.now : ℚ) + v * 3600000 }]) :=
  ⟨⟨fun _ _ => rfl, noNewTabEnv_randomOk⟩,
    tab_open_always_reschedules noNewTabEnv sampleWorld (fun _ _ => rfl) noNewTabEnv_randomOk⟩

/-- C12. The handler `executeTabClose` always resolves and never changes the set of
pending alarms (nothing is rescheduled). If a handle `temp_tab_id = h` is persisted
(a truthy value, as every tab id is) and no platform call is rejected, the platform is
asked to close tab `h` and afterwards no `temp_tab_id` is persisted. If no
`temp_tab_id` is persisted, no tab is closed and the store is unchanged. -/
theorem tab_close_consumes_handle (e : Env) (w : World) :
    (executeTabClose e w).1 = .ok () ∧
    (executeTabClose e w).2.alarms = w.alarms ∧
    (∀ h : JsVal, e.reliable → w.store "temp_tab_id" = some h → truthy (some h) = true →
      (executeTabClose e w).2.closed = w.closed ++ [h] ∧
      (executeTabClose e w).2.store "temp_tab_id" = none) ∧
    (w.store "temp_tab_id" = none →
      (executeTabClose e w).2.closed = w.closed ∧ (executeTabClose e w).2.store = w.store) := by
  have hfr := (executeTabClose_try_frame w.alarms).run e w rfl
  unfold executeTabClose
  rw [tryCatch_consoleLog_run]
  refine ⟨rfl, hfr, ?_, ?_⟩
  · intro h hrel hs ht
    have h' := reliable_onlyDeliveryFails hrel
    simp [bind_run, storageGet_run h', hs, ht, tabsRemove_run h', storageRemove_run h',
      consoleLog]
  · intro hs
    cases hf : e.fails w.calls (.storageGet ["temp_tab_id"]) <;>
      simp [bind_run, storageGet, platform, getWorld, hf, hs]

/-- Witness of C12: the ephemeral tab 105 is open; and no handle is persisted. -/
theorem tab_close_consumes_handle_witness :
    (calmEnv.reliable ∧ tabOpenedWorld.store "temp_tab_id" = some (.num 105) ∧
      truthy (some (.num 105)) = true ∧ sampleWorld.store "temp_tab_id" = none) ∧
    ((executeTabClose calmEnv tabOpenedWorld).2.closed = tabOpenedWorld.closed ++ [.num 105] ∧
      (executeTabClose calmEnv tabOpenedWorld).2.store "temp_tab_id" = none) ∧
    ((executeTabClose calmEnv sampleWorld).2.closed = sampleWorld.closed ∧
      (executeTabClose calmEnv sampleWorld).2.store = sampleWorld.store) :=
  ⟨⟨fun _ _ => rfl, rfl, rfl, rfl⟩,
    (tab_close_consumes_handle calmEnv tabOpenedWorld).2.2.1 (.num 105) (fun _ _ => rfl) rfl rfl,
    (tab_close_consumes_handle calmEnv sampleWorld).2.2.2 rfl⟩

/-- C13, as stated, fails: with a Twitch tab open, `original_channel = 'alice'`
persisted and the `return_to_channel` message undelivered, `executeReturnToOriginal`
does address the message to the tab, but `current_state` stays `channel_switched` (it
is not `returned`) and no `last_action` is written. -/
theorem return_undelivered_leaves_state :
    switchedWorld.tabs ≠ [] ∧
    switchedWorld.store STORAGE_KEYS.ORIGINAL_CHANNEL = some (.str "alice") ∧
    (executeReturnToOriginal deafEnv switchedWorld).2.sent =
      [{ tabId := 7, msg := .return_to_channel (.str "alice"), delivered := false }] ∧
    (executeReturnToOriginal deafEnv switchedWorld).2.store STORAGE_KEYS.CURRENT_STATE =
      some (.str "channel_switched") ∧
    (executeReturnToOriginal deafEnv switchedWorld).2.store STORAGE_KEYS.CURRENT_STATE ≠
      some (.str "returned") ∧
    (executeReturnToOriginal deafEnv switchedWorld).2.store STORAGE_KEYS.LAST_ACTION = none := by
  have hrun : (executeReturnToOriginal deafEnv switchedWorld).2.sent =
      [{ tabId := 7, msg := .return_to_channel (.str "alice"), delivered := false }] ∧
    (executeReturnToOriginal deafEnv switchedWorld).2.store = switchedWorld.store := by
    unfold executeReturnToOriginal
    rw [tryLog_then_run, scheduleNextChannelSwitch_run (fun _ _ => rfl)]
    simp only [bind_run, storageGet_run deafEnv_onlyDeliveryFails,
      tabsQuery_run deafEnv_onlyDeliveryFails]
    simp [bind_run, switchedWorld, sampleWorld, truthy, tabsSendMessage, deafEnv]
  refine ⟨by decide, by decide, hrun.1, ?_, ?_, ?_⟩
  · rw [hrun.2]; decide
  · rw [hrun.2]; decide
  · rw [hrun.2]; decide

/-- C13, amended. For every non-empty target-tab list and every store with a non-empty
`original_channel = c` present, `executeReturnToOriginal` addresses a
`return_to_channel` message carrying `c` to the active tab (else the first tab),
whether or not it is delivered; when the message is acknowledged, it leaves
`current_state = 'returned'` and `last_action.type = 'returned_to_original'`. No other
platform call is rejected. -/
theorem return_to_original_when_delivered (e : Env) (w : World) (tab0 : Tab) (rest : List Tab)
    (c : String) (hf : e.onlyDeliveryFails) (ht : w.tabs = tab0 :: rest)
    (hc : w.store STORAGE_KEYS.ORIGINAL_CHANNEL = some (.str c)) (hne : c ≠ "") :
    (∃ delivered : Bool, (executeReturnToOriginal e w).2.sent = w.sent ++
      [{ tabId := ((w.tabs.find? (fun t => t.active)).getD tab0).id,
         msg := .return_to_channel (.str c), delivered := delivered }]) ∧
    (e.fails (w.calls + 2) (.tabsSendMessage ((w.tabs.find? (fun t => t.active)).getD tab0).id
        (.return_to_channel (.str c))) = false →
      (executeReturnToOriginal e w).2.store STORAGE_KEYS.CURRENT_STATE = some (.str "returned") ∧
      (executeReturnToOriginal e w).2.store STORAGE_KEYS.LAST_ACTION =
        some (.action "returned_to_original" w.now none)) := by
  unfold executeReturnToOriginal
  rw [tryLog_then_run, scheduleNextChannelSwitch_run (odf_acceptsAlarms hf)]
  cases hd : e.fails (w.calls + 2) (.tabsSendMessage
      ((w.tabs.find? (fun t => t.active)).getD tab0).id (.return_to_channel (.str c))) <;>
    simp [ht] at hd <;>
    simp [bind_run, storageGet_run hf, tabsQuery_run hf, ht, hc, truthy, hne, tabsSendMessage,
      hd, dateNow, storageSet_run hf]

/-- Witness of C13, amended: the return from a switched-to channel, delivered. -/
theorem return_to_original_when_delivered_witness :
    (calmEnv.onlyDeliveryFails ∧
      switchedWorld.tabs = [{ id := 7, url := "https://www.twitch.tv/alice", active := false }] ∧
      switchedWorld.store STORAGE_KEYS.ORIGINAL_CHANNEL = some (.str "alice") ∧ "alice" ≠ "") ∧
    (executeReturnToOriginal calmEnv switchedWorld).2.store STORAGE_KEYS.CURRENT_STATE =
      some (.str "returned") ∧
    (executeReturnToOriginal calmEnv switchedWorld).2.store STORAGE_KEYS.LAST_ACTION =
      some (.action "returned_to_original" switchedWorld.now none) :=
  ⟨⟨reliable_onlyDeliveryFails calmEnv_reliable, rfl, rfl, by decide⟩,
    (return_to_original_when_delivered calmEnv switchedWorld
      { id := 7, url := "https://www.twitch.tv/alice", active := false } [] "alice"
      (reliable_onlyDeliveryFails calmEnv_reliable) rfl rfl (by decide)).2 rfl⟩

/-- C14, as stated, fails, at ten candidates `c0 .. c9`. With the branch draw the
Number `0.7` (3152519739159347 / 2 ^ 52, which lies in `[0.4, 0.7)`) and the index draw
`1/2`, the index stated is `⌊1/2 * 10⌋ = 5`, but the code compares with the same Number,
takes the last branch and returns `c7`. With the branch draw `1/2` and the index draw
the Number `0.7`, the index stated is `⌊r2 * 10⌋ = 6`, but the product is rounded to
the Number 7 before the floor and the code returns `c7`. -/
theorem selectChannelWithAI_off_policy :
    (isDraw (3152519739159347 / 4503599627370496) ∧ isDraw (1 / 2) ∧
      1 ≤ tenCandidates.length ∧
      (0.4 : ℚ) ≤ 3152519739159347 / 4503599627370496 ∧
      (3152519739159347 / 4503599627370496 : ℚ) < 0.7 ∧
      (0.4 : ℚ) ≤ 1 / 2 ∧ (1 / 2 : ℚ) < 0.7) ∧
    (tenCandidates[(⌊(1 / 2 : ℚ) * (tenCandidates.length : ℚ)⌋).toNat]? = some "c5" ∧
      selectChannelWithAI (3152519739159347 / 4503599627370496) (1 / 2) (some tenCandidates)
        = some "c7") ∧
    (tenCandidates[(⌊(3152519739159347 / 4503599627370496 : ℚ) *
        (tenCandidates.length : ℚ)⌋).toNat]? = some "c6" ∧
      selectChannelWithAI (1 / 2) (3152519739159347 / 4503599627370496) (some tenCandidates)
        = some "c7") := by
  have hlen : tenCandidates.length = 10 := rfl
  have f1 : ⌊(1 / 2 : ℚ) * ((10 : ℕ) : ℚ)⌋ = 5 := by norm_num [Int.floor_eq_iff]
  have f2 : ⌊(3152519739159347 / 4503599627370496 : ℚ) * ((10 : ℕ) : ℚ)⌋ = 6 := by
    norm_num [Int.floor_eq_iff]
  have b1 : ¬ ((3152519739159347 / 4503599627370496 : ℚ) < fl 0.4) := by
    rw [fl_two_fifths]; norm_num
  have b2 : ¬ ((3152519739159347 / 4503599627370496 : ℚ) < fl 0.7) := by
    rw [fl_seven_tenths]; norm_num
  have b3 : ¬ ((1 / 2 : ℚ) < fl 0.4) := by rw [fl_two_fifths]; norm_num
  have b4 : (1 / 2 : ℚ) < fl 0.7 := by rw [fl_seven_tenths]; norm_num
  have g1 : randomBetween (1 / 2) 5 9 = 7 := by
    obtain ⟨he, -, -⟩ := randomBetween_index (1 / 2) 5 9 isDraw_half (by norm_num) 5 (by norm_num)
    rw [he]
    have : fl ((1 / 2 : ℚ) * ((5 : ℤ) : ℚ)) = 5 / 2 := by
      have := fl_exact 5 (-1) (by norm_num) (by norm_num)
      norm_num at this ⊢
      exact this
    rw [this]
    norm_num [Int.floor_eq_iff]
  have g2 : randomBetween (3152519739159347 / 4503599627370496) 0 9 = 7 := by
    obtain ⟨he, -, -⟩ := randomBetween_index (3152519739159347 / 4503599627370496) 0 9
      isDraw_seven_tenths (by norm_num) 10 (by norm_num)
    rw [he]
    have : fl ((3152519739159347 / 4503599627370496 : ℚ) * ((10 : ℤ) : ℚ)) = 7 := by
      simpa using fl_seven_tenths_mul_ten
    rw [this]
    norm_num
  refine ⟨⟨isDraw_seven_tenths, isDraw_half, by decide, by norm_num, by norm_num, by norm_num,
    by norm_num⟩, ⟨?_, ?_⟩, ⟨?_, ?_⟩⟩
  · rw [hlen, f1]; rfl
  · simp only [selectChannelWithAI, hlen, b1, b2, if_false, selectSmallerChannel]
    norm_num [g1]
    rfl
  · rw [hlen, f2]; rfl
  · simp only [selectChannelWithAI, hlen, b3, b4, if_false, if_true]
    norm_num [g2]
    rfl

/-- C14, amended. The function `selectChannelWithAI` follows the 40/30/30 policy as a
function of its draws, in the arithmetic of Numbers: the bounds are the Numbers that
the literals `0.4` and `0.7` denote (3602879701896397 / 2 ^ 53, and
3152519739159347 / 2 ^ 52, which is below 7/10), and each product is rounded to the
nearest Number (`fl`) before the floor. For an array of `1 ≤ n < 2 ^ 32` candidates, a
branch draw `r1` and an index draw `r2` of `Math.random()`: if `r1 < 0.4` it returns
the candidate at index `⌊fl (r2 * min(5, n))⌋`, among the first 5; if `0.4 ≤ r1 < 0.7`
the candidate at index `⌊fl (r2 * n)⌋`, among all; otherwise the candidate at index
`max(0, n - 5) + ⌊fl (r2 * min(5, n))⌋`, among the last 5. -/
theorem selectChannelWithAI_policy {α : Type} (channels : List α) (r1 r2 : ℚ)
    (hn : 1 ≤ channels.length) (hlen : channels.length < 2 ^ 32) (h2 : isDraw r2) :
    (fl 0.4 = 3602879701896397 / 2 ^ 53 ∧ fl 0.7 = 3152519739159347 / 2 ^ 52) ∧
    (r1 < fl 0.4 → ∃ i : ℕ, (i : ℤ) = ⌊fl (r2 * ((min 5 (channels.length : ℤ) : ℤ) : ℚ))⌋ ∧
      i < min 5 channels.length ∧
      selectChannelWithAI r1 r2 (some channels) = channels[i]?) ∧
    (fl 0.4 ≤ r1 → r1 < fl 0.7 → ∃ i : ℕ,
      (i : ℤ) = ⌊fl (r2 * ((channels.length : ℤ) : ℚ))⌋ ∧
      i < channels.length ∧
      selectChannelWithAI r1 r2 (some channels) = channels[i]?) ∧
    (fl 0.7 ≤ r1 → ∃ i : ℕ,
      (i : ℤ) = max 0 ((channels.length : ℤ) - 5) +
        ⌊fl (r2 * ((min 5 (channels.length : ℤ) : ℤ) : ℚ))⌋ ∧
      channels.length - 5 ≤ i ∧ i < channels.length ∧
      selectChannelWithAI r1 r2 (some channels) = channels[i]?) := by
  have hne : channels.length ≠ 0 := by omega
  refine ⟨⟨by rw [fl_two_fifths]; norm_num, by rw [fl_seven_tenths]; norm_num⟩,
    fun hlt => ?_, fun hge hlt => ?_, fun hge => ?_⟩
  · obtain ⟨he, hf0, hf1⟩ := randomBetween_index r2 0 (min 5 (channels.length : ℤ) - 1)
      h2 (by omega) (min 5 (channels.length : ℤ)) (by omega)
    refine ⟨(⌊fl (r2 * ((min 5 (channels.length : ℤ) : ℤ) : ℚ))⌋).toNat, by omega, by omega, ?_⟩
    simp only [selectChannelWithAI, hne, if_false, hlt, if_true, selectPopularChannel]
    rw [he, jsIndex_of_nonneg _ _ (by omega)]
    simp
  · obtain ⟨he, hf0, hf1⟩ := randomBetween_index r2 0 ((channels.length : ℤ) - 1)
      h2 (by omega) (channels.length : ℤ) (by omega)
    refine ⟨(⌊fl (r2 * ((channels.length : ℤ) : ℚ))⌋).toNat, by omega, by omega, ?_⟩
    simp only [selectChannelWithAI, hne, if_false, not_lt.mpr hge, hlt, if_true]
    rw [he, jsIndex_of_nonneg _ _ (by omega)]
    simp
  · have hge4 : ¬ r1 < fl 0.4 := by
      have : fl 0.4 < fl 0.7 := by rw [fl_two_fifths, fl_seven_tenths]; norm_num
      exact not_lt.mpr (le_trans this.le hge)
    obtain ⟨he, hf0, hf1⟩ := randomBetween_index r2 (max 0 ((channels.length : ℤ) - 5))
      ((channels.length : ℤ) - 1) h2 (by omega)
      (min 5 (channels.length : ℤ)) (by omega)
    refine ⟨(max 0 ((channels.length : ℤ) - 5) +
      ⌊fl (r2 * ((min 5 (channels.length : ℤ) : ℤ) : ℚ))⌋).toNat, by omega, by omega, by omega, ?_⟩
    simp only [selectChannelWithAI, hne, if_false, hge4, not_lt.mpr hge, selectSmallerChannel]
    rw [he, jsIndex_of_nonneg _ _ (by omega)]

/-- Witness of C14, amended: ten candidates, the branch draw `1/2` and the index draw
the Number `0.7`. -/
theorem selectChannelWithAI_policy_witness :
    (1 ≤ tenCandidates.length ∧ tenCandidates.length < 2 ^ 32 ∧
      isDraw (3152519739159347 / 4503599627370496) ∧ fl 0.4 ≤ 1 / 2 ∧ (1 / 2 : ℚ) < fl 0.7) ∧
    ∃ i : ℕ,
      (i : ℤ) = ⌊fl ((3152519739159347 / 4503599627370496 : ℚ) *
        ((tenCandidates.length : ℤ) : ℚ))⌋ ∧
      i < tenCandidates.length ∧
      selectChannelWithAI (1 / 2) (3152519739159347 / 4503599627370496) (some tenCandidates) =
        tenCandidates[i]? :=
  ⟨⟨by decide, by decide, isDraw_seven_tenths, by rw [fl_two_fifths]; norm_num,
      by rw [fl_seven_tenths]; norm_num⟩,
    (selectChannelWithAI_policy tenCandidates (1 / 2) (3152519739159347 / 4503599627370496)
      (by decide) (by decide) isDraw_seven_tenths).2.2.1 (by rw [fl_two_fifths]; norm_num)
      (by rw [fl_seven_tenths]; norm_num)⟩

/-- C15. The candidate filtering in `switchToRandomChannel`, for every candidate list
and every current channel (`none` when the page is no channel page; never the empty
string) and whatever `toLowerCase` is: the filtered list (a) contains no two entries
whose names are equal ignoring case, (b) contains no entry whose name equals the
current channel ignoring case, (c) is a sublist of the input, in the original order, in
which every entry is the first input entry of its name, and (d) contains every input
name, up to case, other than the current channel. -/
theorem filterCandidates_spec (toLowerCase : String → String) (originalChannel : Option String)
    (channels : List ChannelData) (hcur : originalChannel ≠ some "") :
    (filterCandidates toLowerCase originalChannel channels).Pairwise
      (fun a b => toLowerCase a.name ≠ toLowerCase b.name) ∧
    (∀ current, originalChannel = some current →
      ∀ ch ∈ filterCandidates toLowerCase originalChannel channels,
        toLowerCase ch.name ≠ toLowerCase current) ∧
    (List.Sublist (filterCandidates toLowerCase originalChannel channels) channels ∧
      ∀ ch ∈ filterCandidates toLowerCase originalChannel channels,
        channels.find? (fun x => toLowerCase x.name == toLowerCase ch.name) = some ch) ∧
    (∀ ch ∈ channels,
      (∀ current, originalChannel = some current →
        toLowerCase ch.name ≠ toLowerCase current) →
      ∃ ch' ∈ filterCandidates toLowerCase originalChannel channels,
        toLowerCase ch'.name = toLowerCase ch.name) := by
  have hsub := dedupeByName_sublist toLowerCase channels []
  have hpw := dedupeByName_pairwise toLowerCase channels []
  have hfirst := dedupeByName_first toLowerCase channels []
  have hcomp := fun ch h => dedupeByName_complete toLowerCase channels [] ch h (by simp)
  cases originalChannel with
  | none =>
    simp only [filterCandidates]
    exact ⟨hpw, fun c h => by simp at h, ⟨hsub, hfirst⟩, fun ch h _ => hcomp ch h⟩
  | some current =>
    have hne : current ≠ "" := fun h => hcur (by rw [h])
    simp only [filterCandidates, hne, ne_eq, not_false_eq_true, if_true]
    refine ⟨hpw.filter _, ?_, ⟨(List.filter_sublist _).trans hsub, ?_⟩, ?_⟩
    · intro c hc ch hch
      cases hc
      simpa using (List.mem_filter.mp hch).2
    · intro ch hch
      exact hfirst ch (List.mem_filter.mp hch).1
    · intro ch hch hx
      obtain ⟨ch', hm, he⟩ := hcomp ch hch
      refine ⟨ch', List.mem_filter.mpr ⟨hm, ?_⟩, he⟩
      simpa [he] using hx current rfl

/-- Witness of C15: four candidates, two of them `alice` up to case, seen from `/Bob`. -/
theorem filterCandidates_spec_witness :
    getCurrentChannel "/Bob" ≠ some "" ∧
    filterCandidates asciiLower (getCurrentChannel "/Bob")
      [⟨"alice", "a", 1⟩, ⟨"ALICE", "b", 2⟩, ⟨"bob", "c", 3⟩, ⟨"carol", "d", 4⟩] =
      [⟨"alice", "a", 1⟩, ⟨"carol", "d", 4⟩] ∧
    (filterCandidates asciiLower (getCurrentChannel "/Bob")
      [⟨"alice", "a", 1⟩, ⟨"ALICE", "b", 2⟩, ⟨"bob", "c", 3⟩, ⟨"carol", "d", 4⟩]).Pairwise
      (fun a b => asciiLower a.name ≠ asciiLower b.name) :=
  ⟨by decide, by decide,
    (filterCandidates_spec asciiLower (getCurrentChannel "/Bob")
      [⟨"alice", "a", 1⟩, ⟨"ALICE", "b", 2⟩, ⟨"bob", "c", 3⟩, ⟨"carol", "d", 4⟩]
      (by decide)).1⟩

/-- C16. The method `saveHistoryItem` keeps the persisted history bounded and evicts
the oldest entries first: for every stored history `h` (absent counts as empty) and new
entry, the stored result is the last `min(50, |h| + 1)` elements of `h ++ [entry]`; so
its length is that minimum and never exceeds 50, the new entry is its last element and
it is a suffix of `h ++ [entry]` (the relative order is kept). No platform call is
rejected. -/
theorem saveHistoryItem_bounded (e : Env) (w : World) (h : List HistoryItem)
    (time action : String) (hrel : e.reliable)
    (hs : w.store "history" = some (.history h) ∨ (w.store "history" = none ∧ h = [])) :
    ∃ stored : List HistoryItem,
      (saveHistoryItem time action e w).2.store "history" = some (.history stored) ∧
      stored = List.drop ((h.length + 1) - min 50 (h.length + 1))
        (h ++ [HistoryItem.mk time action w.now]) ∧
      stored.length = min 50 (h.length + 1) ∧
      stored.length ≤ 50 ∧
      stored.getLast? = some (HistoryItem.mk time action w.now) ∧
      stored <:+ h ++ [HistoryItem.mk time action w.now] := by
  rw [saveHistoryItem_run (reliable_onlyDeliveryFails hrel) w h time action hs, jsSlice_last50]
  have hk : h.length + 1 - min 50 (h.length + 1) = h.length + 1 - 50 := by omega
  have hlen : (h ++ [HistoryItem.mk time action w.now]).length = h.length + 1 := by simp
  rw [hk, hlen]
  refine ⟨_, by simp, rfl, ?_, ?_, ?_, List.drop_suffix _ _⟩
  · rw [List.length_drop, hlen]; omega
  · rw [List.length_drop, hlen]; omega
  · rw [List.getLast?_drop, hlen, if_neg (by omega)]
    simp

/-- Witness of C16: a history of fifty entries, at the cap; the new entry evicts the
oldest one. -/
theorem saveHistoryItem_bounded_witness :
    (calmEnv.reliable ∧ fullHistoryWorld.store "history" = some (.history fullHistory) ∧
      fullHistory.length = 50) ∧
    ∃ stored : List HistoryItem,
      (saveHistoryItem "10:00" "start" calmEnv fullHistoryWorld).2.store "history" =
        some (.history stored) ∧
      stored = List.drop (fullHistory.length + 1 - min 50 (fullHistory.length + 1))
        (fullHistory ++ [HistoryItem.mk "10:00" "start" fullHistoryWorld.now]) ∧
      stored.length = min 50 (fullHistory.length + 1) ∧
      stored.length ≤ 50 ∧
      stored.getLast? = some (HistoryItem.mk "10:00" "start" fullHistoryWorld.now) ∧
      stored <:+ fullHistory ++ [HistoryItem.mk "10:00" "start" fullHistoryWorld.now] :=
  ⟨⟨fun _ _ => rfl, rfl, rfl⟩,
    saveHistoryItem_bounded calmEnv fullHistoryWorld fullHistory "10:00" "start"
      (fun _ _ => rfl) (Or.inl rfl)⟩

/-- C17, as stated, fails: from the installed initial state (no alarm, `idle`),
`forceAction('tab_open')` arms `tab_close` and `tab_open` and leaves
`current_state = 'idle'`: a reachable idle world with pending alarms. -/
theorem idle_with_timers_after_forceAction :
    Reachable calmEnv (fun _ => True)
      (forceAction "tab_open" calmEnv (setupInitialState calmEnv blankWorld).2).2 ∧
    (forceAction "tab_open" calmEnv (setupInitialState calmEnv blankWorld).2).2.store
      STORAGE_KEYS.CURRENT_STATE = some (.str "idle") ∧
    ((forceAction "tab_open" calmEnv (setupInitialState calmEnv blankWorld).2).2.alarms.map
      (fun a => a.name)) = [ALARM_NAMES.TAB_CLOSE, ALARM_NAMES.TAB_OPEN] := by
  refine ⟨Reachable.force "tab_open" trivial (Reachable.installed blankWorld rfl), ?_, ?_⟩
  · have hrun : forceAction "tab_open" calmEnv (setupInitialState calmEnv blankWorld).2 =
        executeTabOpen calmEnv (setupInitialState calmEnv blankWorld).2 := by
      simp [forceAction]
    rw [hrun, executeTabOpen_run (reliable_onlyDeliveryFails calmEnv_reliable),
      setupInitialState_run (reliable_onlyDeliveryFails calmEnv_reliable)]
    simp
  · have hrun : forceAction "tab_open" calmEnv (setupInitialState calmEnv blankWorld).2 =
        executeTabOpen calmEnv (setupInitialState calmEnv blankWorld).2 := by
      simp [forceAction]
    rw [hrun, executeTabOpen_run (reliable_onlyDeliveryFails calmEnv_reliable),
      setupInitialState_run (reliable_onlyDeliveryFails calmEnv_reliable)]
    simp [replaceAlarm, blankWorld]

/-- C17, amended. Idle means no timers owned, as long as `forceAction` is issued only in
a state that is not `idle`: in every state reachable from the installed initial state
(`setupInitialState`, no alarms) through any sequence of `startTimers`, `stopTimers`,
alarm firings, `page_loaded` and such `forceAction`s, whenever `current_state = 'idle'`
there is no pending alarm. No platform call is rejected. -/
theorem idle_owns_no_timers (e : Env) (w : World) (he : e.reliable)
    (hreach : Reachable e World.notIdle w)
    (hidle : w.store STORAGE_KEYS.CURRENT_STATE = some (.str "idle")) : w.alarms = [] := by
  have h' := reliable_onlyDeliveryFails he
  have key : w.idleOwnsNothing := by
    clear hidle
    induction hreach with
    | installed w0 h0 =>
      rw [setupInitialState_run h']
      exact fun _ => h0
    | start _ _ =>
      rw [startTimers_run h']
      simp [World.idleOwnsNothing]
    | stop _ _ =>
      rw [stopTimers_run h']
      exact fun _ => rfl
    | @fire w1 alarm hmem _ ih =>
      have hni : w1.notIdle := fun hid => by
        rw [ih hid] at hmem
        simp at hmem
      exact fun hid => absurd hid ((fireAlarm_notIdle alarm).run e w1 hni)
    | @force w1 actionType hf _ _ =>
      exact fun hid => absurd hid ((forceAction_notIdle actionType).run e w1 hf)
    | pageLoaded tab _ ih => exact handlePageLoaded_idleOwnsNothing h' _ tab ih
    | elapse now tabs _ ih => exact ih
  exact key hidle

/-- Witness of C17, amended: installed, started, then stopped. -/
theorem idle_owns_no_timers_witness :
    (calmEnv.reliable ∧
      Reachable calmEnv World.notIdle
        (stopTimers calmEnv (startTimers calmEnv (setupInitialState calmEnv blankWorld).2).2).2 ∧
      (stopTimers calmEnv (startTimers calmEnv (setupInitialState calmEnv blankWorld).2).2).2.store
        STORAGE_KEYS.CURRENT_STATE = some (.str "idle")) ∧
    (stopTimers calmEnv (startTimers calmEnv (setupInitialState calmEnv blankWorld).2).2).2.alarms
      = [] :=
  ⟨⟨fun _ _ => rfl, (Reachable.installed blankWorld rfl).start.stop,
      by rw [stopTimers_run (reliable_onlyDeliveryFails calmEnv_reliable)]; rfl⟩,
    idle_owns_no_timers calmEnv _ (fun _ _ => rfl) (Reachable.installed blankWorld rfl).start.stop
      (by rw [stopTimers_run (reliable_onlyDeliveryFails calmEnv_reliable)]; rfl)⟩

/-- C18. The method `handlePageLoaded`: when the sender tab's URL is a twitch.tv page
(it includes `twitch.tv`) and `timers_active` is not truthy, it starts the cycle:
afterwards `timers_active = true`, `current_state = 'active'` and exactly a
`channel_switch` alarm (3 to 6 hours out) and a `tab_open` alarm (1 to 3 hours out) are
pending. When `timers_active` is already truthy, or the tab is missing or its URL is no
twitch.tv page, it leaves the store and every pending alarm, due time included,
unchanged, whatever is rejected. The `page_loaded` case of `handleMessage` leaves the
same world. -/
theorem page_loaded_auto_start (e : Env) (w : World) (tab : Option Tab) (hr : e.randomOk) :
    (∀ t : Tab, e.reliable → tab = some t → includesTwitch t.url = true →
      truthy (w.store STORAGE_KEYS.TIMERS_ACTIVE) = false →
      (handlePageLoaded tab e w).1 = .ok () ∧
      (handlePageLoaded tab e w).2.store STORAGE_KEYS.TIMERS_ACTIVE = some (.bool true) ∧
      (handlePageLoaded tab e w).2.store STORAGE_KEYS.CURRENT_STATE = some (.str "active") ∧
      ∃ vc vt : ℤ, 3 ≤ vc ∧ vc ≤ 6 ∧ 1 ≤ vt ∧ vt ≤ 3 ∧
        (handlePageLoaded tab e w).2.alarms =
          [{ name := ALARM_NAMES.CHANNEL_SWITCH, scheduledTime := (w.now : ℚ) + vc * 3600000 },
           { name := ALARM_NAMES.TAB_OPEN, scheduledTime := (w.now : ℚ) + vt * 3600000 }]) ∧
    ((truthy (w.store STORAGE_KEYS.TIMERS_ACTIVE) = true ∨ tab = none ∨
        ∃ t : Tab, tab = some t ∧ includesTwitch t.url = false) →
      (handlePageLoaded tab e w).2.store = w.store ∧
      (handlePageLoaded tab e w).2.alarms = w.alarms) ∧
    (∀ actionType : String,
      (handleMessage { action := "page_loaded", actionType := actionType } tab e w).2 =
        (handlePageLoaded tab e w).2) := by
  refine ⟨?_, ?_, fun actionType => handleMessage_page_loaded e w actionType tab⟩
  · rintro t hrel rfl hurl ht
    have h' := reliable_onlyDeliveryFails hrel
    obtain ⟨vc, hc1, hc2, hc⟩ := hours_draw hr w.draws 3 6 (by decide)
    obtain ⟨vt, ht1, ht2, ht'⟩ := hours_draw hr (w.draws + 1) 1 3 (by decide)
    rw [handlePageLoaded_start h' w t hurl ht, startTimers_run h']
    refine ⟨rfl, by simp, by simp, vc, vt, hc1, hc2, ht1, ht2, ?_⟩
    simp [hc, ht']
  · intro hcase
    cases tab with
    | none => simp [handlePageLoaded]
    | some t =>
      by_cases hurl : includesTwitch t.url = true
      · have ht : truthy (w.store STORAGE_KEYS.TIMERS_ACTIVE) = true := by
          rcases hcase with h | h | ⟨t', h, h2⟩
          · exact h
          · cases h
          · cases h; rw [hurl] at h2; cases h2
        have hne := includesTwitch_ne_empty t.url hurl
        cases hf : e.fails w.calls (.storageGet [STORAGE_KEYS.TIMERS_ACTIVE]) <;>
          simp [handlePageLoaded, hne, hurl, bind_run, storageGet, platform, getWorld] at hf ht ⊢ <;>
          simp [hf, ht]
      · simp [handlePageLoaded, hurl]

/-- Witness of C18: a first visit after installation; and a visit while timers run. -/
theorem page_loaded_auto_start_witness :
    (calmEnv.randomOk ∧ calmEnv.reliable ∧
      includesTwitch "https://www.twitch.tv/alice" = true ∧
      truthy (installedWorld.store STORAGE_KEYS.TIMERS_ACTIVE) = false ∧
      truthy (restartedWorld.store STORAGE_KEYS.TIMERS_ACTIVE) = true) ∧
    ((handlePageLoaded (some { id := 7, url := "https://www.twitch.tv/alice", active := true })
        calmEnv installedWorld).1 = .ok () ∧
      (handlePageLoaded (some { id := 7, url := "https://www.twitch.tv/alice", active := true })
        calmEnv installedWorld).2.store STORAGE_KEYS.TIMERS_ACTIVE = some (.bool true) ∧
      (handlePageLoaded (some { id := 7, url := "https://www.twitch.tv/alice", active := true })
        calmEnv installedWorld).2.store STORAGE_KEYS.CURRENT_STATE = some (.str "active") ∧
      ∃ vc vt : ℤ, 3 ≤ vc ∧ vc ≤ 6 ∧ 1 ≤ vt ∧ vt ≤ 3 ∧
        (handlePageLoaded (some { id := 7, url := "https://www.twitch.tv/alice", active := true })
          calmEnv installedWorld).2.alarms =
          [{ name := ALARM_NAMES.CHANNEL_SWITCH,
             scheduledTime := (installedWorld.now : ℚ) + vc * 3600000 },
           { name := ALARM_NAMES.TAB_OPEN,
             scheduledTime := (installedWorld.now : ℚ) + vt * 3600000 }]) ∧
    ((handlePageLoaded (some { id := 7, url := "https://www.twitch.tv/alice", active := true })
        calmEnv restartedWorld).2.store = restartedWorld.store ∧
      (handlePageLoaded (some { id := 7, url := "https://www.twitch.tv/alice", active := true })
        calmEnv restartedWorld).2.alarms = restartedWorld.alarms) :=
  ⟨⟨calmEnv_randomOk, fun _ _ => rfl, by decide, by decide, by decide⟩,
    (page_loaded_auto_start calmEnv installedWorld
      (some { id := 7, url := "https://www.twitch.tv/alice", active := true })
      calmEnv_randomOk).1 _ (fun _ _ => rfl) rfl (by decide) (by decide),
    (page_loaded_auto_start calmEnv restartedWorld
      (some { id := 7, url := "https://www.twitch.tv/alice", active := true })
      calmEnv_randomOk).2.1 (Or.inl (by decide))⟩

/-- C19 (the code departs from the claim). The claim: auto-start on page load is
governed by the persisted `autoStart` setting, so with `autoStart = false` and
`timers_active = false` a `page_loaded` message from a Twitch tab arms nothing. The
background never reads `autoStart`: in the installed world with `autoStart = false`,
handling `page_loaded` from a Twitch tab sets `timers_active = true` and arms
`channel_switch` and `tab_open`. -/
theorem page_loaded_ignores_autoStart :
    installedWorld.store "autoStart" = some (.bool false) ∧
    installedWorld.store STORAGE_KEYS.TIMERS_ACTIVE = some (.bool false) ∧
    installedWorld.alarms = [] ∧
    (handleMessage { action := "page_loaded", actionType := "" }
      (some { id := 7, url := "https://www.twitch.tv/alice", active := true })
      calmEnv installedWorld).2.store STORAGE_KEYS.TIMERS_ACTIVE = some (.bool true) ∧
    ((handleMessage { action := "page_loaded", actionType := "" }
      (some { id := 7, url := "https://www.twitch.tv/alice", active := true })
      calmEnv installedWorld).2.alarms.map (fun a => a.name)) =
      [ALARM_NAMES.CHANNEL_SWITCH, ALARM_NAMES.TAB_OPEN] := by
  have hrun := handlePageLoaded_start (reliable_onlyDeliveryFails calmEnv_reliable) installedWorld
    { id := 7, url := "https://www.twitch.tv/alice", active := true } (by decide) (by decide)
  rw [handleMessage_page_loaded, hrun, startTimers_run (reliable_onlyDeliveryFails calmEnv_reliable)]
  refine ⟨by decide, by decide, rfl, by simp, by simp⟩

/-- C20, as stated, fails: the path `/directory/following` is no channel page in the
sense of `getCurrentChannel`, yet with the selected tab on
`https://www.twitch.tv/directory/following` the handler `executeChannelSwitch` writes
`original_channel = 'directory'`, the first path segment. -/
theorem original_channel_written_on_directory_page :
    getCurrentChannel "/directory/following" = none ∧
    directoryWorld.store STORAGE_KEYS.ORIGINAL_CHANNEL = none ∧
    (executeChannelSwitch calmEnv directoryWorld).2.store STORAGE_KEYS.ORIGINAL_CHANNEL =
      some (.str "directory") := by
  refine ⟨by decide, rfl, ?_⟩
  rw [executeChannelSwitch_run (reliable_onlyDeliveryFails calmEnv_reliable) directoryWorld
    { id := 7, url := "https://www.twitch.tv/directory/following", active := true }
    "directory" rfl (by decide) (by decide)]
  simp

/-- C20, amended. The key `original_channel` is written by `executeChannelSwitch` only
when the URL of the selected tab has a non-empty segment after `twitch.tv/`: for every
selected tab (the active tab, else the first) whose URL has none, so that
`extractChannelFromUrl` answers `null`, as for `https://www.twitch.tv/`, and also when
no tab is open, `executeChannelSwitch` leaves the persisted `original_channel`
unchanged, whichever platform calls are rejected. -/
theorem original_channel_unchanged_without_segment (e : Env) (w : World)
    (h : ∀ tab0 rest, w.tabs = tab0 :: rest →
      extractChannelFromUrl ((w.tabs.find? (fun t => t.active)).getD tab0).url = none) :
    (executeChannelSwitch e w).2.store STORAGE_KEYS.ORIGINAL_CHANNEL =
      w.store STORAGE_KEYS.ORIGINAL_CHANNEL := by
  have key : Preserves (fun w' => w'.tabs = w.tabs ∧
      w'.store STORAGE_KEYS.ORIGINAL_CHANNEL = w.store STORAGE_KEYS.ORIGINAL_CHANNEL)
      executeChannelSwitch := by
    unfold executeChannelSwitch
    apply Preserves.tryCatch
    · apply Preserves.tabsQuery_bind w.tabs (fun _ hw => hw.1) (fun _ hw => hw)
      rcases hT : w.tabs with _ | ⟨tab0, rest⟩
      · unfold scheduleNextChannelSwitch alarmsCreate
        repeat' first
          | apply Preserves.pure
          | apply Preserves.consoleLog
          | apply Preserves.bind
          | apply Preserves.platform
          | apply Preserves.modifyWorld
          | apply Preserves.mathRandom
          | intro (_ : _)
        all_goals assumption
      · have hx := h tab0 rest hT
        rw [hT] at hx
        simp only [saveOriginalChannel, hx]
        unfold storageSet alarmsCreate
        repeat' first
          | apply Preserves.pure
          | apply Preserves.consoleLog
          | apply Preserves.bind
          | apply Preserves.tryCatch
          | apply Preserves.platform
          | apply Preserves.modifyWorld
          | apply Preserves.dateNow
          | apply Preserves.mathRandom
          | apply Preserves.tabsSendMessage
          | intro (_ : _)
        all_goals assumption
    · intro _
      unfold scheduleNextChannelSwitch alarmsCreate
      repeat' first
        | apply Preserves.pure
        | apply Preserves.consoleLog
        | apply Preserves.bind
        | apply Preserves.platform
        | apply Preserves.modifyWorld
        | apply Preserves.mathRandom
        | intro (_ : _)
      all_goals assumption
  exact (key.run e w ⟨rfl, rfl⟩).2

/-- Witness of C20, amended: the selected tab is on the front page. -/
theorem original_channel_unchanged_without_segment_witness :
    extractChannelFromUrl "https://www.twitch.tv/" = none ∧
    (executeChannelSwitch calmEnv frontPageWorld).2.store STORAGE_KEYS.ORIGINAL_CHANNEL =
      frontPageWorld.store STORAGE_KEYS.ORIGINAL_CHANNEL :=
  ⟨by decide,
    original_channel_unchanged_without_segment calmEnv frontPageWorld (fun tab0 rest h => by
      injection h with h1 h2
      subst h1
      decide)⟩

/-- C21. Cold start discards the non-primary schedule. With a truthy persisted
`timers_active` flag (in particular `true`), whatever the store and the alarm set,
`restoreTimers` resolves and afterwards the pending alarms are exactly `channel_switch`
and `tab_open`, in particular no `return_to_original` and no `tab_close` alarm is
pending, and `current_state` is `'active'` whatever it was; `original_channel`,
`temp_tab_id` and every key other than `timers_active` and `current_state` keep
their values. -/
theorem cold_start_discards_secondary_schedule (e : Env) (w : World) (he : e.reliable)
    (ht : truthy (w.store STORAGE_KEYS.TIMERS_ACTIVE) = true) :
    (restoreTimers e w).1 = .ok () ∧
    (restoreTimers e w).2.alarms.map (fun a => a.name) =
      [ALARM_NAMES.CHANNEL_SWITCH, ALARM_NAMES.TAB_OPEN] ∧
    (restoreTimers e w).2.pending ALARM_NAMES.RETURN_TO_ORIGINAL = [] ∧
    (restoreTimers e w).2.pending ALARM_NAMES.TAB_CLOSE = [] ∧
    (restoreTimers e w).2.store STORAGE_KEYS.CURRENT_STATE = some (.str "active") ∧
    (restoreTimers e w).2.store STORAGE_KEYS.ORIGINAL_CHANNEL =
      w.store STORAGE_KEYS.ORIGINAL_CHANNEL ∧
    (restoreTimers e w).2.store "temp_tab_id" = w.store "temp_tab_id" ∧
    (∀ k, k ≠ STORAGE_KEYS.TIMERS_ACTIVE → k ≠ STORAGE_KEYS.CURRENT_STATE →
      (restoreTimers e w).2.store k = w.store k) := by
  have h' := reliable_onlyDeliveryFails he
  rw [restoreTimers_start h' w ht, startTimers_run h']
  refine ⟨rfl, by simp, by simp [World.pending], by simp [World.pending], by simp, by simp,
    by simp, ?_⟩
  intro k hk1 hk2
  simp only [STORAGE_KEYS.TIMERS_ACTIVE, STORAGE_KEYS.CURRENT_STATE] at hk1 hk2
  simp [hk1, hk2]

/-- Witness of C21: a restart on a switched-to channel with a `return_to_original`
and a `tab_close` alarm pending. -/
theorem cold_start_discards_secondary_schedule_witness :
    (calmEnv.reliable ∧ truthy (midSwitchWorld.store STORAGE_KEYS.TIMERS_ACTIVE) = true ∧
      midSwitchWorld.pending ALARM_NAMES.RETURN_TO_ORIGINAL ≠ [] ∧
      midSwitchWorld.pending ALARM_NAMES.TAB_CLOSE ≠ [] ∧
      midSwitchWorld.store STORAGE_KEYS.CURRENT_STATE = some (.str "channel_switched")) ∧
    ((restoreTimers calmEnv midSwitchWorld).1 = .ok () ∧
    (restoreTimers calmEnv midSwitchWorld).2.alarms.map (fun a => a.name) =
      [ALARM_NAMES.CHANNEL_SWITCH, ALARM_NAMES.TAB_OPEN] ∧
    (restoreTimers calmEnv midSwitchWorld).2.pending ALARM_NAMES.RETURN_TO_ORIGINAL = [] ∧
    (restoreTimers calmEnv midSwitchWorld).2.pending ALARM_NAMES.TAB_CLOSE = [] ∧
    (restoreTimers calmEnv midSwitchWorld).2.store STORAGE_KEYS.CURRENT_STATE =
      some (.str "active") ∧
    (restoreTimers calmEnv midSwitchWorld).2.store STORAGE_KEYS.ORIGINAL_CHANNEL =
      midSwitchWorld.store STORAGE_KEYS.ORIGINAL_CHANNEL ∧
    (restoreTimers calmEnv midSwitchWorld).2.store "temp_tab_id" =
      midSwitchWorld.store "temp_tab_id" ∧
    (∀ k, k ≠ STORAGE_KEYS.TIMERS_ACTIVE → k ≠ STORAGE_KEYS.CURRENT_STATE →
      (restoreTimers calmEnv midSwitchWorld).2.store k = midSwitchWorld.store k)) :=
  ⟨⟨fun _ _ => rfl, by decide, by decide, by decide, by decide⟩,
    cold_start_discards_secondary_schedule calmEnv midSwitchWorld (fun _ _ => rfl) (by decide)⟩

/-- C22. Selection never indexes out of range. For every non-empty candidate array (of
any length an array can have, below `2 ^ 32`, including fewer than 5) and every index
draw `r` of `Math.random()` (a Number in `[0, 1)`), `selectChannelWithAI` (whatever its
strategy draw `random`), `selectPopularChannel` and `selectSmallerChannel` return an
element of the list, never `undefined`; for an empty or a missing list
`selectChannelWithAI` returns `null`. -/
theorem selection_in_range {α : Type} (random r : ℚ) (channels : List α)
    (hr : isDraw r) (hlen : channels.length < 2 ^ 32) :
    (channels ≠ [] →
      (∃ x ∈ channels, selectChannelWithAI random r (some channels) = some x) ∧
      (∃ x ∈ channels, selectPopularChannel r channels = some x) ∧
      (∃ x ∈ channels, selectSmallerChannel r channels = some x)) ∧
    selectChannelWithAI random r (some ([] : List α)) = none ∧
    selectChannelWithAI random r (none : Option (List α)) = none := by
  refine ⟨fun hn => ⟨?_, selectPopularChannel_mem r channels hn hlen hr,
    selectSmallerChannel_mem r channels hn hlen hr⟩, rfl, rfl⟩
  have hne : channels.length ≠ 0 := fun h => hn (List.length_eq_zero.mp h)
  simp only [selectChannelWithAI, hne, if_false]
  split_ifs
  · exact selectPopularChannel_mem r channels hn hlen hr
  · exact selectUniform_mem r channels hn hlen hr
  · exact selectSmallerChannel_mem r channels hn hlen hr

/-- Witness of C22: a list of three candidates, shorter than five, and the Number `0.7`
as index draw. -/
theorem selection_in_range_witness :
    (isDraw (3152519739159347 / 4503599627370496) ∧ ["a", "b", "c"].length < 2 ^ 32 ∧
      ["a", "b", "c"] ≠ []) ∧
    ((∃ x ∈ ["a", "b", "c"], selectChannelWithAI (1 / 2)
        (3152519739159347 / 4503599627370496) (some ["a", "b", "c"]) = some x) ∧
      (∃ x ∈ ["a", "b", "c"],
        selectPopularChannel (3152519739159347 / 4503599627370496) ["a", "b", "c"] = some x) ∧
      (∃ x ∈ ["a", "b", "c"],
        selectSmallerChannel (3152519739159347 / 4503599627370496) ["a", "b", "c"] = some x)) :=
  ⟨⟨isDraw_seven_tenths, by decide, by decide⟩,
    (selection_in_range (1 / 2) (3152519739159347 / 4503599627370496) ["a", "b", "c"]
      isDraw_seven_tenths (by decide)).1 (by decide)⟩

/-- C23. Return round trip. For every non-empty channel name `c` containing neither
`/` nor `?`, the content script's `returnToChannel`, when not already navigating,
navigates to `'https://www.twitch.tv/' ++ c`, and the background's
`extractChannelFromUrl` maps that URL back to `c`. `extractChannelFromUrl` returns
`null` for `'https://www.twitch.tv/'`, and for every URL `site ++ 'twitch.tv/'` that
ends in its only occurrence of `twitch.tv/`. -/
theorem return_round_trip (c : String) (page : PageState) (site : String)
    (hc : isChannelSegment c) (hp : page.isNavigating = false)
    (hs : ¬ "twitch.tv/".toList <:+: (site ++ "twitch.tv").toList) :
    (returnToChannel (some c) page).href = "https://www.twitch.tv/" ++ c ∧
    extractChannelFromUrl (returnToChannel (some c) page).href = some c ∧
    extractChannelFromUrl "https://www.twitch.tv/" = none ∧
    extractChannelFromUrl (site ++ "twitch.tv/") = none := by
  have hnav : (returnToChannel (some c) page).href = "https://www.twitch.tv/" ++ c := by
    simp [returnToChannel, hc.1, hp]
  refine ⟨hnav, ?_, by decide, extractChannelFromUrl_nothing_after site hs⟩
  rw [hnav]
  exact extractChannelFromUrl_channel_page c hc

/-- Witness of C23: the channel `alice`, and the mobile front page. -/
theorem return_round_trip_witness :
    (isChannelSegment "alice" ∧ samplePage.isNavigating = false ∧
      ¬ "twitch.tv/".toList <:+: ("https://m." ++ "twitch.tv").toList) ∧
    ((returnToChannel (some "alice") samplePage).href = "https://www.twitch.tv/" ++ "alice" ∧
    extractChannelFromUrl (returnToChannel (some "alice") samplePage).href = some "alice" ∧
    extractChannelFromUrl "https://www.twitch.tv/" = none ∧
    extractChannelFromUrl ("https://m." ++ "twitch.tv/") = none) :=
  ⟨⟨⟨by decide, by decide⟩, by decide, by decide⟩,
    return_round_trip "alice" samplePage "https://m." ⟨by decide, by decide⟩ (by decide)
      (by decide)⟩

end TwitchNavigator
